import Mathlib

/-!
Verification of the cortex ring package (`pkg/ring/ring.go`): a shallow
embedding of the read-side ring data structures and algorithms, with theorems
settling the specification claims about replica selection, quorum math,
shuffle sharding, the operation bitmap codec, the subring cache patching and
the auto-forget helper.

Machine integers (`uint32` tokens, `int` counters, unix-second timestamps) are
modelled as `Nat`/`Int`; every value manipulated stays far below `2^32`
overflow in the code paths covered, so no modular reduction is needed.
Go maps iterated by `range` are modelled as association lists (one arbitrary
iteration order); map lookups that yield Go zero values on a missing key are
modelled with a `default` element.
-/

namespace Cortex.Ring

/-- The `InstanceState` enumeration of the ring protobuf, with its numeric
encoding (the order used by `NewOp` when probing the extend predicate). -/
inductive InstanceState where
  | ACTIVE
  | LEAVING
  | PENDING
  | JOINING
  | LEFT
  | READONLY
deriving DecidableEq, Repr, Fintype

/-- Numeric value of an `InstanceState` (the protobuf enum value). -/
def InstanceState.toNat : InstanceState → Nat
  | .ACTIVE => 0
  | .LEAVING => 1
  | .PENDING => 2
  | .JOINING => 3
  | .LEFT => 4
  | .READONLY => 5

/-- The list of all states probed by `NewOp` when caching the extend
predicate, in source order. -/
def allInstanceStates : List InstanceState :=
  [.ACTIVE, .LEAVING, .PENDING, .JOINING, .LEFT, .READONLY]

/-- `InstanceDesc`: one ring member. Timestamps are unix seconds, tokens are
the member's 32-bit ring positions. The instance id is carried in the record
(the descriptor map is keyed by it). -/
structure InstanceDesc where
  id : String
  addr : String
  state : InstanceState
  zone : String
  registeredTimestamp : Int
  timestamp : Int
  tokens : List Nat
deriving DecidableEq, Repr

/-- The Go zero value of `InstanceDesc` (returned by a map lookup on a
missing key). -/
instance : Inhabited InstanceDesc :=
  ⟨{ id := "", addr := "", state := .ACTIVE, zone := "",
     registeredTimestamp := 0, timestamp := 0, tokens := [] }⟩

/-- `Desc.Ingesters`: the authoritative instance map, as an association list
from instance id to `InstanceDesc` in one iteration order. -/
abbrev Desc := List (String × InstanceDesc)

/-- Go map indexing `Ingesters[id]`: the stored instance, or the zero value
when the id is missing. -/
def Desc.lookup (d : Desc) (id : String) : InstanceDesc :=
  match List.find? (fun p => p.1 == id) d with
  | some p => p.2
  | none => default

/-- The instance descriptors of `d` in iteration order. -/
def Desc.values (d : Desc) : List InstanceDesc :=
  List.map Prod.snd d

/-- The instance ids of `d` in iteration order. -/
def Desc.keys (d : Desc) : List String :=
  List.map Prod.fst d

/-- Errors surfaced by the read-side ring operations. -/
inductive RingError where
  | emptyRing
  | instanceNotFound
  | tooManyUnhealthyInstances
  | inconsistentTokensInfo
deriving DecidableEq, Repr

/-- `ReplicationSet` as returned to callers. -/
structure ReplicationSet where
  instances : List InstanceDesc
  maxErrors : Nat
  maxUnavailableZones : Nat
deriving DecidableEq, Repr

/-! ### Operation codec (`NewOp`, `IsInstanceInStateHealthy`,
`ShouldExtendReplicaSetOnState`) -/

/-- `Operation` is a 32-bit bitmap; all set bits are below bit 22, so `Nat`
carries it exactly. -/
abbrev Operation := Nat

/-- `NewOp`: OR of `1 << s` over the healthy states, then, when an extend
predicate is supplied (`nil` becomes `none`), OR of `0x10000 << s` over the
states the predicate accepts, probing states in the source's fixed order. -/
def NewOp (healthyStates : List InstanceState)
    (shouldExtendReplicaSet : Option (InstanceState → Bool)) : Operation :=
  let op : Nat := List.foldl (fun op s => op ||| (1 <<< s.toNat)) 0 healthyStates
  match shouldExtendReplicaSet with
  | none => op
  | some f =>
      List.foldl (fun op s => if f s then op ||| (0x10000 <<< s.toNat) else op)
        op allInstanceStates

/-- `Operation.IsInstanceInStateHealthy`: tests the low bit for the state. -/
def Operation.IsInstanceInStateHealthy (op : Operation) (s : InstanceState) : Bool :=
  decide (op &&& (1 <<< s.toNat) > 0)

/-- `Operation.ShouldExtendReplicaSetOnState`: tests the high bit for the
state. -/
def Operation.ShouldExtendReplicaSetOnState (op : Operation) (s : InstanceState) : Bool :=
  decide (op &&& (0x10000 <<< s.toNat) > 0)

/-- The `Write` operation value. -/
def Write : Operation :=
  NewOp [.ACTIVE] (some fun s => decide (s ≠ .ACTIVE))

/-- The `WriteNoExtend` operation value. -/
def WriteNoExtend : Operation :=
  NewOp [.ACTIVE] (some fun s => decide (s = .READONLY))

/-- The `Read` operation value. -/
def Read : Operation :=
  NewOp [.ACTIVE, .PENDING, .LEAVING, .JOINING, .READONLY]
    (some fun s => decide (s ≠ .ACTIVE ∧ s ≠ .LEAVING ∧ s ≠ .JOINING ∧ s ≠ .READONLY))

/-- `allStatesRingOperation` (the `Reporting` op): all states healthy, no
extension. -/
def allStatesRingOperation : Operation := (0x0000ffff : Nat)

/-! ### Ring read state

The fields of `Ring` used by the read-side algorithms, taken as explicit
parameters: the descriptor snapshot (a `nil` pointer is `none`), the derived
token views, the zone list, and the configuration. The per-instance health
check `r.IsHealthy(&instance, op, storageLastUpdate)` lives outside this
file's sources; every algorithm below takes it as an opaque boolean predicate
on the instance, which the theorems quantify over. -/

structure RingConfig where
  replicationFactor : Nat
  zoneAwarenessEnabled : Bool
deriving DecidableEq, Repr

/-- The loop of `GetReplicationSetForOperation` that fills the `zoneFailures`
set: each instance failing the health check inserts its zone (set semantics:
no duplicate entries). -/
def zoneFailuresAux (healthy : InstanceDesc → Bool) : List String → Desc → List String
  | zs, [] => zs
  | zs, p :: rest =>
      if healthy p.2 then zoneFailuresAux healthy zs rest
      else if p.2.zone ∈ zs then zoneFailuresAux healthy zs rest
      else zoneFailuresAux healthy (zs ++ [p.2.zone]) rest

/-- The `zoneFailures` set of `GetReplicationSetForOperation`. -/
def zoneFailuresOf (d : Desc) (healthy : InstanceDesc → Bool) : List String :=
  zoneFailuresAux healthy [] d

/-- `Ring.GetReplicationSetForOperation`, with the health check abstracted.
`ringDesc = none` models a nil descriptor pointer. -/
def getReplicationSetForOperation (ringDesc : Option Desc) (ringTokens : List Nat)
    (ringZones : List String) (cfg : RingConfig) (healthy : InstanceDesc → Bool) :
    Except RingError ReplicationSet :=
  match ringDesc with
  | none => .error .emptyRing
  | some d =>
    if ringTokens.length = 0 then .error .emptyRing
    else
      let healthyInstances := List.filter healthy d.values
      let zoneFailures := zoneFailuresOf d healthy
      if cfg.zoneAwarenessEnabled then
        let numReplicatedZones := min ringZones.length cfg.replicationFactor
        let minSuccessZones := numReplicatedZones / 2 + 1
        let maxUnavailableZones := minSuccessZones - 1
        if zoneFailures.length > maxUnavailableZones then
          .error .tooManyUnhealthyInstances
        else
          let healthyInstances :=
            if zoneFailures.length > 0 then
              List.filter (fun i => !List.contains zoneFailures i.zone) healthyInstances
            else healthyInstances
          .ok { instances := healthyInstances, maxErrors := 0,
                maxUnavailableZones := maxUnavailableZones - zoneFailures.length }
      else
        let numRequired := max d.values.length cfg.replicationFactor
        let numRequired := numRequired - cfg.replicationFactor / 2
        if healthyInstances.length < numRequired then
          .error .tooManyUnhealthyInstances
        else
          .ok { instances := healthyInstances,
                maxErrors := healthyInstances.length - numRequired,
                maxUnavailableZones := 0 }

/-- `Ring.GetAllHealthy`, with the health check abstracted. Note its empty
guard tests the instance count, not the token list. -/
def getAllHealthy (ringDesc : Option Desc) (healthy : InstanceDesc → Bool) :
    Except RingError ReplicationSet :=
  match ringDesc with
  | none => .error .emptyRing
  | some d =>
    if d.values.length = 0 then .error .emptyRing
    else
      .ok { instances := List.filter healthy d.values, maxErrors := 0,
            maxUnavailableZones := 0 }

/-- `instanceInfo`: the value of `ringInstanceByToken`. -/
structure InstanceInfo where
  instanceID : String
  zone : String
deriving DecidableEq, Repr

/-- Modelled from the spec: `searchToken` (the token-utilities file is not
among the provided sources): the smallest index `i` such that
`tokens[i] > key`, else `0`. -/
def searchToken (tokens : List Nat) (key : Nat) : Nat :=
  match tokens.findIdx? (fun t => decide (t > key)) with
  | some i => i
  | none => 0

/-- Modelled from the spec: `defaultReplicationStrategy.Filter` (the
replication-strategy file is not among the provided sources): with
`min_required_success = RF/2 + 1`, it returns the healthy subset of the
candidates and `max_errors = len(candidates) - min_required_success`,
failing with `TooManyUnhealthy` when the healthy subset is smaller than
`min_required_success`. The per-candidate health check is abstracted as a
predicate. -/
def defaultReplicationStrategyFilter (healthy : InstanceDesc → Bool)
    (instances : List InstanceDesc) (replicationFactor : Nat) :
    Except RingError (List InstanceDesc × Nat) :=
  let minSuccess := replicationFactor / 2 + 1
  let healthyInstances := instances.filter healthy
  if healthyInstances.length < minSuccess then .error .tooManyUnhealthyInstances
  else .ok (healthyInstances, instances.length - minSuccess)

/-! ### `Ring.Get` -/

/-- The mutable locals of the `Get` walk: the collected candidates, the
`distinctHosts` slice, the per-zone selection counts (a Go map: `none`
models an absent key), the remaining `zonesWithExtraInstance` budget and the
(possibly extended) target `replicationFactor`. -/
structure GetLoopState where
  instances : List InstanceDesc
  distinctHosts : List String
  numOfInstanceByZone : String → Option Nat
  zonesWithExtra : Int
  replicationFactor : Nat

/-- Go map store `m[z] = n`. -/
def updateZoneMap (m : String → Option Nat) (z : String) (n : Nat) :
    String → Option Nat :=
  fun z' => if z' = z then some n else m z'

/-- The zone-cap test of the `Get` walk: when zone-awareness is enabled and
the instance's zone is set, skip it once the zone's running count has reached
`maxInstancePerZone`, plus one while `zonesWithExtra > 0`. -/
def getZoneSkip (cfg : RingConfig) (maxInstancePerZone : Nat) (info : InstanceInfo)
    (st : GetLoopState) : Bool :=
  cfg.zoneAwarenessEnabled && !(info.zone == "")
    && decide ((if st.zonesWithExtra > 0 then maxInstancePerZone + 1 else maxInstancePerZone)
        ≤ (st.numOfInstanceByZone info.zone).getD 0)

/-- The state update performed when the `Get` walk selects an instance: if
the op extends the replica set on the instance's state, grow the target by
one (no zone accounting); otherwise, when zone-aware and the zone is set,
bump the zone's count, retiring one `zonesWithExtra` unit when the count
crosses `maxInstancePerZone`. -/
def getSelectUpdate (cfg : RingConfig) (op : Operation) (maxInstancePerZone : Nat)
    (info : InstanceInfo) (inst : InstanceDesc) (st : GetLoopState) : GetLoopState :=
  if op.ShouldExtendReplicaSetOnState inst.state then
    { st with replicationFactor := st.replicationFactor + 1 }
  else if cfg.zoneAwarenessEnabled ∧ info.zone ≠ "" then
    match st.numOfInstanceByZone info.zone with
    | none =>
        { st with numOfInstanceByZone := updateZoneMap st.numOfInstanceByZone info.zone 1 }
    | some n =>
        if n < maxInstancePerZone then
          { st with numOfInstanceByZone := updateZoneMap st.numOfInstanceByZone info.zone (n + 1) }
        else
          { st with
            numOfInstanceByZone := updateZoneMap st.numOfInstanceByZone info.zone (n + 1),
            zonesWithExtra := st.zonesWithExtra - 1 }
  else st

/-- One step structure of the token walk of `Ring.Get`: `fuel` counts the
remaining iterations (the Go loop runs at most `len(ringTokens)` times), `i`
is the walk index (reduced mod the token count on entry, as in the source).
`none` models returning `ErrInconsistentTokensInfo`. -/
def getLoop (d : Desc) (ringTokens : List Nat) (resolve : Nat → Option InstanceInfo)
    (cfg : RingConfig) (op : Operation) (maxInstancePerZone : Nat) :
    Nat → Nat → GetLoopState → Option GetLoopState
  | 0, _, st => some st
  | fuel + 1, i, st =>
      if st.replicationFactor ≤ st.distinctHosts.length then some st
      else
        match resolve (ringTokens.getD (i % ringTokens.length) 0) with
        | none => none
        | some info =>
            if List.contains st.distinctHosts info.instanceID then
              getLoop d ringTokens resolve cfg op maxInstancePerZone fuel
                (i % ringTokens.length + 1) st
            else if getZoneSkip cfg maxInstancePerZone info st then
              getLoop d ringTokens resolve cfg op maxInstancePerZone fuel
                (i % ringTokens.length + 1) st
            else
              getLoop d ringTokens resolve cfg op maxInstancePerZone fuel
                (i % ringTokens.length + 1)
                { getSelectUpdate cfg op maxInstancePerZone info (d.lookup info.instanceID) st with
                  instances :=
                    (getSelectUpdate cfg op maxInstancePerZone info (d.lookup info.instanceID) st).instances
                      ++ [d.lookup info.instanceID],
                  distinctHosts :=
                    (getSelectUpdate cfg op maxInstancePerZone info (d.lookup info.instanceID) st).distinctHosts
                      ++ [info.instanceID] }

/-- The initial state of the `Get` walk. -/
def getInitState (cfg : RingConfig) (ringZones : List String) : GetLoopState :=
  { instances := [], distinctHosts := [], numOfInstanceByZone := fun _ => none,
    zonesWithExtra := (cfg.replicationFactor % ringZones.length : Int),
    replicationFactor := cfg.replicationFactor }

/-- `Ring.Get`: walks the ring from `searchToken(ringTokens, key)` collecting
candidates, then hands them to the replication strategy (the default one,
modelled from the spec) and returns the `ReplicationSet` (its
`MaxUnavailableZones` is the zero value). -/
def get (ringDesc : Option Desc) (ringTokens : List Nat)
    (resolve : Nat → Option InstanceInfo) (ringZones : List String)
    (cfg : RingConfig) (op : Operation) (key : Nat)
    (healthy : InstanceDesc → Bool) : Except RingError ReplicationSet :=
  match ringDesc with
  | none => .error .emptyRing
  | some d =>
    if ringTokens.length = 0 then .error .emptyRing
    else
      match getLoop d ringTokens resolve cfg op
          (cfg.replicationFactor / ringZones.length) ringTokens.length
          (searchToken ringTokens key) (getInitState cfg ringZones) with
      | none => .error .inconsistentTokensInfo
      | some st =>
          match defaultReplicationStrategyFilter healthy st.instances
              cfg.replicationFactor with
          | .error e => .error e
          | .ok (healthyInstances, maxFailure) =>
              .ok { instances := healthyInstances, maxErrors := maxFailure,
                    maxUnavailableZones := 0 }

/-- The number of candidates in zone `z` that did not trigger a replica-set
extension (the zone-accounted selections of the `Get` walk). -/
def nonExtendingCountInZone (op : Operation) (z : String) (l : List InstanceDesc) : Nat :=
  (l.filter fun inst =>
    !(op.ShouldExtendReplicaSetOnState inst.state) && decide (inst.zone = z)).length

/-- The invariant tying the per-zone Go map of the `Get` walk to the
non-extending candidate counts, and bounding those counts by the zone cap.
`rfmod` is the initial `zonesWithExtraInstance` value, `RF mod |ringZones|`. -/
def GetZoneInv (op : Operation) (maxInstancePerZone : Nat) (rfmod : Nat)
    (st : GetLoopState) : Prop :=
  (∀ z, z ≠ ""
      → (st.numOfInstanceByZone z).getD 0 = nonExtendingCountInZone op z st.instances)
    ∧ (∀ z, z ≠ ""
        → nonExtendingCountInZone op z st.instances ≤ maxInstancePerZone + 1)
    ∧ 0 ≤ st.zonesWithExtra
    ∧ (rfmod = 0 → st.zonesWithExtra = 0
        ∧ ∀ z, z ≠ ""
            → nonExtendingCountInZone op z st.instances ≤ maxInstancePerZone)

/-! ### Shuffle sharding (`shuffleShard` and wrappers)

The per-zone pseudorandom generator (`rand.New(rand.NewSource(
shardUtil.ShuffleShardSeed(identifier, zone)))`) lives outside this file's
sources; the spec fixes only that the seed is a deterministic function of
`(identifier, zone)`. It is modelled as an opaque draw stream
`rng : String → Nat → Nat` mapping a zone and draw index to the drawn 32-bit
value — in particular the stream does not depend on the shard size, which is
what the code guarantees by seeding per `(identifier, zone)`. -/

/-- Modelled from the spec: `shardUtil.ShuffleShardExpectedInstancesPerZone`
(the shard package is not among the provided sources): ceiling division of
the shard size by the zone count. -/
def shuffleShardExpectedInstancesPerZone (numInstances numZones : Nat) : Nat :=
  (numInstances + numZones - 1) / numZones

/-- The walk-continuation condition of the shuffle-shard selection
(ring.go: lookback window hit, or `READONLY` state). -/
def shuffleExtendCond (lookbackPeriod lookbackUntil : Int) (inst : InstanceDesc) : Bool :=
  (decide (lookbackPeriod > 0) && decide (inst.registeredTimestamp ≥ lookbackUntil))
    || decide (inst.state = .READONLY)

/-- The inner token walk of one shuffle-shard draw: skip instances already in
the shard; otherwise add the instance and either continue walking (when the
extension condition holds) or report a completed selection (`found = true`).
`none` models `panic(ErrInconsistentTokensInfo)`. -/
def shardWalk (resolve : Nat → Option InstanceInfo) (ingesters : Desc)
    (tokens : List Nat) (lookbackPeriod lookbackUntil : Int) :
    Nat → Nat → Desc → Option (Desc × Bool)
  | 0, _, shard => some (shard, false)
  | fuel + 1, p, shard =>
      match resolve (tokens.getD (p % tokens.length) 0) with
      | none => none
      | some info =>
          if List.contains (shard.map Prod.fst) info.instanceID then
            shardWalk resolve ingesters tokens lookbackPeriod lookbackUntil fuel
              (p % tokens.length + 1) shard
          else if shuffleExtendCond lookbackPeriod lookbackUntil
              (ingesters.lookup info.instanceID) then
            shardWalk resolve ingesters tokens lookbackPeriod lookbackUntil fuel
              (p % tokens.length + 1)
              (shard ++ [(info.instanceID, ingesters.lookup info.instanceID)])
          else
            some (shard ++ [(info.instanceID, ingesters.lookup info.instanceID)], true)

/-- The per-zone draw loop: each draw starts a walk at
`searchToken(tokens, rng(drawIdx))`; a draw that completes no selection
(`found = false`) stops picking for the zone. -/
def shardZonePicks (resolve : Nat → Option InstanceInfo) (ingesters : Desc)
    (tokens : List Nat) (lookbackPeriod lookbackUntil : Int) (rng : Nat → Nat) :
    Nat → Nat → Desc → Option Desc
  | 0, _, shard => some shard
  | n + 1, drawIdx, shard =>
      match shardWalk resolve ingesters tokens lookbackPeriod lookbackUntil
          tokens.length (searchToken tokens (rng drawIdx)) shard with
      | none => none
      | some (shard', found) =>
          if found then
            shardZonePicks resolve ingesters tokens lookbackPeriod lookbackUntil rng
              n (drawIdx + 1) shard'
          else some shard'

/-- The zone loop of `shuffleShard`: zones in the stable `ringZones` order
(one synthetic `""` zone with all ring tokens when zone-awareness is off),
distributing the `zonesWithExtra` budget to the first zones. -/
def shuffleShardZones (resolve : Nat → Option InstanceInfo) (ingesters : Desc)
    (ringTokens : List Nat) (tokensByZone : String → List Nat) (zoneAware : Bool)
    (lookbackPeriod lookbackUntil : Int) (rng : String → Nat → Nat)
    (numInstancesPerZone : Nat) : List String → Int → Desc → Option Desc
  | [], _, shard => some shard
  | zone :: rest, zonesWithExtra, shard =>
      match shardZonePicks resolve ingesters
          (if zoneAware then tokensByZone zone else ringTokens)
          lookbackPeriod lookbackUntil (rng zone)
          (if zonesWithExtra > 0 then numInstancesPerZone + 1 else numInstancesPerZone)
          0 shard with
      | none => none
      | some shard' =>
          shuffleShardZones resolve ingesters ringTokens tokensByZone zoneAware
            lookbackPeriod lookbackUntil rng numInstancesPerZone rest
            (if zonesWithExtra > 0 then zonesWithExtra - 1 else zonesWithExtra) shard'

/-- `Ring.shuffleShard`: per-zone balancing per the sharding variant, then
the zone loop; `lookbackUntil = now - lookbackPeriod` (unix seconds). The
result is the selected instance map (the shard of the built subring). -/
def shuffleShard (ringDesc : Desc) (ringTokens : List Nat)
    (tokensByZone : String → List Nat) (ringZones : List String)
    (resolve : Nat → Option InstanceInfo) (cfg : RingConfig)
    (rng : String → Nat → Nat) (size : Nat) (lookbackPeriod : Int) (now : Int)
    (zoneStableSharding : Bool) : Option Desc :=
  if cfg.zoneAwarenessEnabled then
    if zoneStableSharding then
      shuffleShardZones resolve ringDesc ringTokens tokensByZone true lookbackPeriod
        (now - lookbackPeriod) rng (size / ringZones.length) ringZones
        ((size : Int) % (ringZones.length : Int)) []
    else
      shuffleShardZones resolve ringDesc ringTokens tokensByZone true lookbackPeriod
        (now - lookbackPeriod) rng
        (shuffleShardExpectedInstancesPerZone size ringZones.length) ringZones 0 []
  else
    shuffleShardZones resolve ringDesc ringTokens tokensByZone false lookbackPeriod
      (now - lookbackPeriod) rng size [""] 0 []

/-- `Ring.ShuffleShard` / `Ring.ShuffleShardWithZoneStability` through
`shuffleShardWithCache` (the cache is elided; a hit carries the same instance
set, see the cache-patch theorem): when `size ≤ 0` or the ring is not larger
than `size`, the parent ring (its whole instance set) is returned; otherwise
the shard is computed with no lookback. -/
def shuffleShardNoLookback (ringDesc : Desc) (ringTokens : List Nat)
    (tokensByZone : String → List Nat) (ringZones : List String)
    (resolve : Nat → Option InstanceInfo) (cfg : RingConfig)
    (rng : String → Nat → Nat) (size : Int) (zoneStableSharding : Bool) :
    Option Desc :=
  if size ≤ 0 ∨ (ringDesc.length : Int) ≤ size then some ringDesc
  else shuffleShard ringDesc ringTokens tokensByZone ringZones resolve cfg rng
    size.toNat 0 0 zoneStableSharding

/-! ### Shuffle-shard analysis helpers

`shardWalkD`/`shardZonePicksD` recompute the walk and draw loop as the list
of *added* entries over an abstract shard-membership predicate; they are
proof devices related to `shardWalk`/`shardZonePicks` by
`shardWalk_eq_delta`/`shardZonePicks_eq_delta`. -/

/-- Membership of an instance id in a shard map. -/
def shardMem (shard : Desc) : String → Bool :=
  fun x => List.contains (shard.map Prod.fst) x

/-- The added entries and completion flag of one walk, over an abstract
membership predicate. -/
def shardWalkD (resolve : Nat → Option InstanceInfo) (ingesters : Desc)
    (tokens : List Nat) (lookbackPeriod lookbackUntil : Int)
    (mem : String → Bool) : Nat → Nat → Desc × Bool
  | 0, _ => ([], false)
  | fuel + 1, p =>
      match resolve (tokens.getD (p % tokens.length) 0) with
      | none => ([], false)
      | some info =>
          if mem info.instanceID then
            shardWalkD resolve ingesters tokens lookbackPeriod lookbackUntil mem fuel
              (p % tokens.length + 1)
          else if shuffleExtendCond lookbackPeriod lookbackUntil
              (ingesters.lookup info.instanceID) then
            ((info.instanceID, ingesters.lookup info.instanceID)
                :: (shardWalkD resolve ingesters tokens lookbackPeriod lookbackUntil
                  (fun x => mem x || x == info.instanceID) fuel
                  (p % tokens.length + 1)).1,
             (shardWalkD resolve ingesters tokens lookbackPeriod lookbackUntil
                (fun x => mem x || x == info.instanceID) fuel
                (p % tokens.length + 1)).2)
          else ([(info.instanceID, ingesters.lookup info.instanceID)], true)

/-- The entries added by the per-zone draw loop, over an abstract membership
predicate. -/
def shardZonePicksD (resolve : Nat → Option InstanceInfo) (ingesters : Desc)
    (tokens : List Nat) (lookbackPeriod lookbackUntil : Int) (rng : Nat → Nat)
    (mem : String → Bool) : Nat → Nat → Desc
  | 0, _ => []
  | n + 1, drawIdx =>
      if (shardWalkD resolve ingesters tokens lookbackPeriod lookbackUntil mem
          tokens.length (searchToken tokens (rng drawIdx))).2 then
        (shardWalkD resolve ingesters tokens lookbackPeriod lookbackUntil mem
            tokens.length (searchToken tokens (rng drawIdx))).1
          ++ shardZonePicksD resolve ingesters tokens lookbackPeriod lookbackUntil rng
            (fun x => mem x
              || List.contains
                ((shardWalkD resolve ingesters tokens lookbackPeriod lookbackUntil mem
                  tokens.length (searchToken tokens (rng drawIdx))).1.map Prod.fst) x)
            n (drawIdx + 1)
      else
        (shardWalkD resolve ingesters tokens lookbackPeriod lookbackUntil mem
          tokens.length (searchToken tokens (rng drawIdx))).1

/-! ### Subring cache patching (`getCachedShuffledSubring`)

On a cache hit the loop over the cached subring's ingesters overwrites, for
each instance name, only the `State` and `Timestamp` fields with the values
from the parent ring's current descriptor (`ing := r.ringDesc.Ingesters[name]`,
a Go map lookup that yields the zero value on a miss), leaving everything
else of the cached subring untouched. -/

/-- The derived views of a (sub)ring snapshot touched by the cache-hit
path. -/
structure SubringState where
  ingesters : Desc
  ringTokens : List Nat
  ringTokensByZone : List (String × List Nat)
  ringZones : List String
deriving DecidableEq, Repr

/-- The patch loop of `getCachedShuffledSubring` on a cache hit. -/
def patchCachedSubring (parent : Desc) (cached : SubringState) : SubringState :=
  { cached with
    ingesters := cached.ingesters.map fun p =>
      (p.1, { p.2 with
              state := (parent.lookup p.1).state,
              timestamp := (parent.lookup p.1).timestamp }) }

/-! ### Auto-forget (`AutoForgetFromRing`)

The loop ranges over the descriptor and calls `RemoveIngester(id)` for every
instance whose last heartbeat is further than `forgetPeriod` in the past;
`time.Since(lastHeartbeat) > forgetPeriod` at a fixed evaluation time `now`
is `now - timestamp > forgetPeriod`. Removing while ranging is equivalent to
filtering, since each removal only affects that entry. -/

/-- `AutoForgetFromRing` at a fixed evaluation time `now` (unix seconds):
removes every instance whose heartbeat is older than `now - forgetPeriod`. -/
def AutoForgetFromRing (ringDesc : Desc) (forgetPeriod : Int) (now : Int) : Desc :=
  List.filter (fun p => !decide (now - p.2.timestamp > forgetPeriod)) ringDesc

/-! ### Subring cache theorems -/

/-! ### `GetReplicationSetForOperation` theorems -/

/-- The zones containing at least one instance failing the health check, in
canonical form (first-occurrence dedup over the descriptor's unhealthy
instances). -/
def unhealthyZones (d : Desc) (healthy : InstanceDesc → Bool) : List String :=
  ((d.values.filter fun i => !healthy i).map fun i => i.zone).dedup

/-! ### `Get` walk invariants -/

theorem getSelectUpdate_frame (cfg : RingConfig) (op : Operation)
    (maxInstancePerZone : Nat) (info : InstanceInfo) (inst : InstanceDesc)
    (st : GetLoopState) :
    (getSelectUpdate cfg op maxInstancePerZone info inst st).instances = st.instances
      ∧ (getSelectUpdate cfg op maxInstancePerZone info inst st).distinctHosts
          = st.distinctHosts := by
  unfold getSelectUpdate
  split
  · exact ⟨rfl, rfl⟩
  split
  · split
    · exact ⟨rfl, rfl⟩
    · split
      · exact ⟨rfl, rfl⟩
      · exact ⟨rfl, rfl⟩
  · exact ⟨rfl, rfl⟩

theorem getLoop_distinct_inv (d : Desc) (ringTokens : List Nat)
    (resolve : Nat → Option InstanceInfo) (cfg : RingConfig) (op : Operation)
    (maxInstancePerZone : Nat)
    (Hid : ∀ t info, resolve t = some info
      → (Desc.lookup d info.instanceID).id = info.instanceID) :
    ∀ fuel i st st',
      getLoop d ringTokens resolve cfg op maxInstancePerZone fuel i st = some st' →
      st.instances.map InstanceDesc.id = st.distinctHosts → st.distinctHosts.Nodup →
      st'.instances.map InstanceDesc.id = st'.distinctHosts ∧ st'.distinctHosts.Nodup := by
  intro fuel
  induction fuel with
  | zero =>
      intro i st st' h h1 h2
      simp only [getLoop] at h
      cases h
      exact ⟨h1, h2⟩
  | succ n ih =>
      intro i st st' h h1 h2
      rw [getLoop] at h
      split at h
      · cases h
        exact ⟨h1, h2⟩
      · split at h
        · cases h
        · rename_i info hres
          split at h
          · exact ih _ _ _ h h1 h2
          · rename_i hc
            split at h
            · exact ih _ _ _ h h1 h2
            · refine ih _ _ _ h ?_ ?_
              · simp only [List.map_append,
                  (getSelectUpdate_frame cfg op maxInstancePerZone info
                    (d.lookup info.instanceID) st).1,
                  (getSelectUpdate_frame cfg op maxInstancePerZone info
                    (d.lookup info.instanceID) st).2, h1, List.map_cons, List.map_nil]
                rw [Hid _ _ hres]
              · have hmem : info.instanceID ∉ st.distinctHosts := by
                  intro hmem
                  exact hc (by simpa [List.contains, List.elem_iff] using hmem)
                simp only [(getSelectUpdate_frame cfg op maxInstancePerZone info
                  (d.lookup info.instanceID) st).2]
                simp [List.nodup_append, h2, hmem]

/-- C6: for every key, operation and descriptor, the replication set returned
by `Get` contains no instance id twice: the walk only selects ids absent from
`distinctHosts`, and the strategy filter returns a subset of the collected
candidates. -/
theorem get_distinct_ids (d : Desc) (ringTokens : List Nat)
    (resolve : Nat → Option InstanceInfo) (ringZones : List String)
    (cfg : RingConfig) (op : Operation) (key : Nat) (healthy : InstanceDesc → Bool)
    (Hid : ∀ t info, resolve t = some info
      → (Desc.lookup d info.instanceID).id = info.instanceID)
    (rs : ReplicationSet)
    (h : get (some d) ringTokens resolve ringZones cfg op key healthy = .ok rs) :
    (rs.instances.map InstanceDesc.id).Nodup := by
  simp only [get] at h
  by_cases htok : ringTokens.length = 0
  · rw [if_pos htok] at h
    cases h
  · rw [if_neg htok] at h
    cases hloop : getLoop d ringTokens resolve cfg op
        (cfg.replicationFactor / ringZones.length) ringTokens.length
        (searchToken ringTokens key) (getInitState cfg ringZones) with
    | none =>
        simp only [hloop] at h
        cases h
    | some st =>
        simp only [hloop] at h
        have hinv := getLoop_distinct_inv d ringTokens resolve cfg op
          (cfg.replicationFactor / ringZones.length) Hid ringTokens.length
          (searchToken ringTokens key) (getInitState cfg ringZones) st hloop rfl
          List.nodup_nil
        simp only [defaultReplicationStrategyFilter] at h
        by_cases hfew : (st.instances.filter healthy).length
            < cfg.replicationFactor / 2 + 1
        · rw [if_pos hfew] at h
          simp at h
        · rw [if_neg hfew] at h
          simp only [Except.ok.injEq] at h
          have hh : rs.instances = st.instances.filter healthy := by
            rw [← h]
          have hsub : List.Sublist ((st.instances.filter healthy).map InstanceDesc.id)
              (st.instances.map InstanceDesc.id) :=
            (List.filter_sublist st.instances).map InstanceDesc.id
          rw [hh]
          exact List.Nodup.sublist hsub (hinv.1 ▸ hinv.2)

theorem nonExtendingCountInZone_append (op : Operation) (z : String)
    (l : List InstanceDesc) (inst : InstanceDesc) :
    nonExtendingCountInZone op z (l ++ [inst])
      = nonExtendingCountInZone op z l
        + (if !(op.ShouldExtendReplicaSetOnState inst.state) && decide (inst.zone = z)
           then 1 else 0) := by
  unfold nonExtendingCountInZone
  rw [List.filter_append, List.length_append]
  by_cases hp : (!(op.ShouldExtendReplicaSetOnState inst.state)
      && decide (inst.zone = z)) = true
  · simp [List.filter, hp]
  · simp [List.filter, hp]

theorem getSelectUpdate_zone_inv (cfg : RingConfig) (op : Operation)
    (maxInstancePerZone : Nat) (rfmod : Nat) (info : InstanceInfo)
    (inst : InstanceDesc) (st : GetLoopState)
    (hza : cfg.zoneAwarenessEnabled = true)
    (hzone : inst.zone = info.zone)
    (hskip : ¬getZoneSkip cfg maxInstancePerZone info st = true)
    (hinv : GetZoneInv op maxInstancePerZone rfmod st) :
    GetZoneInv op maxInstancePerZone rfmod
      { getSelectUpdate cfg op maxInstancePerZone info inst st with
        instances := (getSelectUpdate cfg op maxInstancePerZone info inst st).instances
          ++ [inst],
        distinctHosts := (getSelectUpdate cfg op maxInstancePerZone info inst st).distinctHosts
          ++ [info.instanceID] } := by
  obtain ⟨h1, h2, h3, h4⟩ := hinv
  by_cases hext : op.ShouldExtendReplicaSetOnState inst.state = true
  · have hsel : getSelectUpdate cfg op maxInstancePerZone info inst st
        = { st with replicationFactor := st.replicationFactor + 1 } := by
      unfold getSelectUpdate
      rw [if_pos hext]
    have hcount : ∀ z, nonExtendingCountInZone op z (st.instances ++ [inst])
        = nonExtendingCountInZone op z st.instances := by
      intro z
      rw [nonExtendingCountInZone_append]
      simp [hext]
    rw [hsel]
    refine ⟨?_, ?_, ?_, ?_⟩ <;> dsimp only
    · intro z hz
      rw [hcount z]
      exact h1 z hz
    · intro z hz
      rw [hcount z]
      exact h2 z hz
    · exact h3
    · intro hrf
      exact ⟨(h4 hrf).1, fun z hz => by rw [hcount z]; exact (h4 hrf).2 z hz⟩
  · have hcount : ∀ z, z ≠ inst.zone →
        nonExtendingCountInZone op z (st.instances ++ [inst])
          = nonExtendingCountInZone op z st.instances := by
      intro z hz
      rw [nonExtendingCountInZone_append]
      have hdz : decide (inst.zone = z) = false := by
        simp only [decide_eq_false_iff_not]
        exact fun hcon => hz hcon.symm
      simp [hdz]
    have hcountOwn : nonExtendingCountInZone op inst.zone (st.instances ++ [inst])
        = nonExtendingCountInZone op inst.zone st.instances + 1 := by
      rw [nonExtendingCountInZone_append]
      simp [hext]
    by_cases hiz : info.zone = ""
    · have hsel : getSelectUpdate cfg op maxInstancePerZone info inst st = st := by
        unfold getSelectUpdate
        rw [if_neg hext, if_neg (by simp [hiz])]
      rw [hsel]
      refine ⟨?_, ?_, h3, ?_⟩
      · intro z hz
        rw [hcount z (by rw [hzone, hiz]; exact hz)]
        exact h1 z hz
      · intro z hz
        rw [hcount z (by rw [hzone, hiz]; exact hz)]
        exact h2 z hz
      · intro hrf
        exact ⟨(h4 hrf).1, fun z hz => by
          rw [hcount z (by rw [hzone, hiz]; exact hz)]
          exact (h4 hrf).2 z hz⟩
    · have hlt : (st.numOfInstanceByZone info.zone).getD 0
          < (if st.zonesWithExtra > 0 then maxInstancePerZone + 1
             else maxInstancePerZone) := by
        simp only [getZoneSkip, hza, Bool.true_and, Bool.and_eq_true,
          Bool.not_eq_true', beq_eq_false_iff_ne, decide_eq_true_eq,
          not_and, not_le] at hskip
        exact hskip hiz
      have hizc : nonExtendingCountInZone op info.zone st.instances
          = (st.numOfInstanceByZone info.zone).getD 0 := (h1 info.zone hiz).symm
      cases hmap : st.numOfInstanceByZone info.zone with
      | none =>
          have hsel : getSelectUpdate cfg op maxInstancePerZone info inst st
              = { st with numOfInstanceByZone :=
                    updateZoneMap st.numOfInstanceByZone info.zone 1 } := by
            unfold getSelectUpdate
            rw [if_neg hext, if_pos (And.intro (by rw [hza]) hiz), hmap]
          have hc0 : nonExtendingCountInZone op info.zone st.instances = 0 := by
            rw [hizc, hmap]
            rfl
          rw [hsel]
          refine ⟨?_, ?_, ?_, ?_⟩ <;> dsimp only
          · intro z hz
            by_cases hzeq : z = info.zone
            · subst hzeq
              rw [← hzone, hcountOwn, hzone, hc0]
              simp [updateZoneMap]
            · rw [hcount z (by rw [hzone]; exact fun hcon => hzeq hcon)]
              simp only [updateZoneMap]
              rw [if_neg hzeq]
              exact h1 z hz
          · intro z hz
            by_cases hzeq : z = info.zone
            · subst hzeq
              rw [← hzone, hcountOwn, hzone, hc0]
              omega
            · rw [hcount z (by rw [hzone]; exact fun hcon => hzeq hcon)]
              exact h2 z hz
          · exact h3
          · intro hrf
            obtain ⟨hex0, hb⟩ := h4 hrf
            refine ⟨hex0, ?_⟩
            intro z hz
            by_cases hzeq : z = info.zone
            · subst hzeq
              rw [← hzone, hcountOwn, hzone, hc0]
              rw [hex0] at hlt
              simp only [gt_iff_lt, lt_irrefl, if_false] at hlt
              rw [hmap] at hlt
              simp only [Option.getD_none] at hlt
              omega
            · rw [hcount z (by rw [hzone]; exact fun hcon => hzeq hcon)]
              exact hb z hz
      | some n =>
          have hcn : nonExtendingCountInZone op info.zone st.instances = n := by
            rw [hizc, hmap]
            rfl
          by_cases hnlt : n < maxInstancePerZone
          · have hsel : getSelectUpdate cfg op maxInstancePerZone info inst st
                = { st with numOfInstanceByZone :=
                      updateZoneMap st.numOfInstanceByZone info.zone (n + 1) } := by
              unfold getSelectUpdate
              rw [if_neg hext, if_pos (And.intro (by rw [hza]) hiz), hmap]
              simp [hnlt]
            rw [hsel]
            refine ⟨?_, ?_, ?_, ?_⟩ <;> dsimp only
            · intro z hz
              by_cases hzeq : z = info.zone
              · subst hzeq
                rw [← hzone, hcountOwn, hzone, hcn]
                simp [updateZoneMap]
              · rw [hcount z (by rw [hzone]; exact fun hcon => hzeq hcon)]
                simp only [updateZoneMap]
                rw [if_neg hzeq]
                exact h1 z hz
            · intro z hz
              by_cases hzeq : z = info.zone
              · subst hzeq
                rw [← hzone, hcountOwn, hzone, hcn]
                omega
              · rw [hcount z (by rw [hzone]; exact fun hcon => hzeq hcon)]
                exact h2 z hz
            · exact h3
            · intro hrf
              obtain ⟨hex0, hb⟩ := h4 hrf
              refine ⟨hex0, ?_⟩
              intro z hz
              by_cases hzeq : z = info.zone
              · subst hzeq
                rw [← hzone, hcountOwn, hzone, hcn]
                omega
              · rw [hcount z (by rw [hzone]; exact fun hcon => hzeq hcon)]
                exact hb z hz
          · have hsel : getSelectUpdate cfg op maxInstancePerZone info inst st
                = { st with
                    numOfInstanceByZone :=
                      updateZoneMap st.numOfInstanceByZone info.zone (n + 1),
                    zonesWithExtra := st.zonesWithExtra - 1 } := by
              unfold getSelectUpdate
              rw [if_neg hext, if_pos (And.intro (by rw [hza]) hiz), hmap]
              simp [hnlt]
            have hexpos : st.zonesWithExtra > 0 := by
              by_contra hcon
              rw [if_neg hcon, hmap] at hlt
              simp only [Option.getD_some] at hlt
              omega
            have hnlt1 : n < maxInstancePerZone + 1 := by
              rw [if_pos hexpos, hmap] at hlt
              simpa using hlt
            rw [hsel]
            refine ⟨?_, ?_, ?_, ?_⟩ <;> dsimp only
            · intro z hz
              by_cases hzeq : z = info.zone
              · subst hzeq
                rw [← hzone, hcountOwn, hzone, hcn]
                simp [updateZoneMap]
              · rw [hcount z (by rw [hzone]; exact fun hcon => hzeq hcon)]
                simp only [updateZoneMap]
                rw [if_neg hzeq]
                exact h1 z hz
            · intro z hz
              by_cases hzeq : z = info.zone
              · subst hzeq
                rw [← hzone, hcountOwn, hzone, hcn]
                omega
              · rw [hcount z (by rw [hzone]; exact fun hcon => hzeq hcon)]
                exact h2 z hz
            · omega
            · intro hrf
              obtain ⟨hex0, _⟩ := h4 hrf
              rw [hex0] at hexpos
              exact absurd hexpos (by omega)

theorem getLoop_zone_inv (d : Desc) (ringTokens : List Nat)
    (resolve : Nat → Option InstanceInfo) (cfg : RingConfig) (op : Operation)
    (maxInstancePerZone : Nat) (rfmod : Nat)
    (hza : cfg.zoneAwarenessEnabled = true)
    (Hzone : ∀ t info, resolve t = some info
      → (Desc.lookup d info.instanceID).zone = info.zone) :
    ∀ fuel i st st',
      getLoop d ringTokens resolve cfg op maxInstancePerZone fuel i st = some st' →
      GetZoneInv op maxInstancePerZone rfmod st →
      GetZoneInv op maxInstancePerZone rfmod st' := by
  intro fuel
  induction fuel with
  | zero =>
      intro i st st' h hinv
      simp only [getLoop] at h
      cases h
      exact hinv
  | succ n ih =>
      intro i st st' h hinv
      rw [getLoop] at h
      split at h
      · cases h
        exact hinv
      · split at h
        · cases h
        · rename_i info hres
          split at h
          · exact ih _ _ _ h hinv
          · split at h
            · exact ih _ _ _ h hinv
            · rename_i hskip
              exact ih _ _ _ h
                (getSelectUpdate_zone_inv cfg op maxInstancePerZone rfmod info
                  (d.lookup info.instanceID) st hza (Hzone _ _ hres) hskip hinv)

theorem ceil_div_eq (a Z : Nat) (hZ : 0 < Z) :
    (a + Z - 1) / Z = a / Z + (if a % Z = 0 then 0 else 1) := by
  have hqr : Z * (a / Z) + a % Z = a := Nat.div_add_mod a Z
  have hr : a % Z < Z := Nat.mod_lt a hZ
  by_cases h0 : a % Z = 0
  · rw [if_pos h0]
    have heq : a + Z - 1 = Z * (a / Z) + (Z - 1) := by omega
    rw [heq, Nat.mul_add_div hZ, Nat.div_eq_of_lt (show Z - 1 < Z by omega)]
  · rw [if_neg h0]
    have heq : a + Z - 1 = Z * (a / Z + 1) + (a % Z - 1) := by
      have hzz : Z * (a / Z + 1) = Z * (a / Z) + Z := by ring
      omega
    rw [heq, Nat.mul_add_div hZ, Nat.div_eq_of_lt (show a % Z - 1 < Z by omega)]

/-- C3 (amended: the bound holds per non-empty zone; instances with an empty
zone bypass the zone cap): with zone-awareness enabled and at least as many
ring zones as the replication factor RF, the candidate set collected by the
`Get` walk contains at most `ceil(RF / |ringZones|)` non-extending instances
in every non-empty zone. -/
theorem get_zone_balance (d : Desc) (ringTokens : List Nat)
    (resolve : Nat → Option InstanceInfo) (ringZones : List String)
    (cfg : RingConfig) (op : Operation) (key : Nat)
    (hza : cfg.zoneAwarenessEnabled = true)
    (hZ : 0 < ringZones.length)
    (hzr : cfg.replicationFactor ≤ ringZones.length)
    (Hzone : ∀ t info, resolve t = some info
      → (Desc.lookup d info.instanceID).zone = info.zone)
    (st : GetLoopState)
    (hloop : getLoop d ringTokens resolve cfg op
        (cfg.replicationFactor / ringZones.length) ringTokens.length
        (searchToken ringTokens key) (getInitState cfg ringZones) = some st)
    (z : String) (hz : z ≠ "") :
    nonExtendingCountInZone op z st.instances
      ≤ (cfg.replicationFactor + ringZones.length - 1) / ringZones.length := by
  have hinit : GetZoneInv op (cfg.replicationFactor / ringZones.length)
      (cfg.replicationFactor % ringZones.length) (getInitState cfg ringZones) := by
    refine ⟨?_, ?_, ?_, ?_⟩
    · intro z _
      rfl
    · intro z _
      simp [nonExtendingCountInZone, getInitState]
    · simp only [getInitState]
      omega
    · intro hrf
      constructor
      · simp only [getInitState]
        omega
      · intro z _
        simp [nonExtendingCountInZone, getInitState]
  have hfin := getLoop_zone_inv d ringTokens resolve cfg op
    (cfg.replicationFactor / ringZones.length)
    (cfg.replicationFactor % ringZones.length) hza Hzone ringTokens.length
    (searchToken ringTokens key) (getInitState cfg ringZones) st hloop hinit
  obtain ⟨_, h2, _, h4⟩ := hfin
  rw [ceil_div_eq _ _ hZ]
  by_cases h0 : cfg.replicationFactor % ringZones.length = 0
  · rw [if_pos h0]
    have := (h4 h0).2 z hz
    omega
  · rw [if_neg h0]
    have := h2 z hz
    omega

/-- Closed-form check of `get_zone_balance` on a three-zone ring with one
`ACTIVE` instance per zone and RF = 3: zone `z1` holds exactly one
non-extending candidate, within the bound `ceil(3/3) = 1`. -/
theorem get_zone_balance_witness :
    ∃ st, getLoop
        [("a", { id := "a", addr := "a1", state := .ACTIVE, zone := "z1",
                 registeredTimestamp := 0, timestamp := 0, tokens := [5] }),
         ("b", { id := "b", addr := "b1", state := .ACTIVE, zone := "z2",
                 registeredTimestamp := 0, timestamp := 0, tokens := [9] }),
         ("c", { id := "c", addr := "c1", state := .ACTIVE, zone := "z3",
                 registeredTimestamp := 0, timestamp := 0, tokens := [13] })]
        [5, 9, 13]
        (fun t => if t = 5 then some ⟨"a", "z1"⟩
                  else if t = 9 then some ⟨"b", "z2"⟩ else some ⟨"c", "z3"⟩)
        { replicationFactor := 3, zoneAwarenessEnabled := true } WriteNoExtend
        (3 / 3) 3 (searchToken [5, 9, 13] 2)
        (getInitState { replicationFactor := 3, zoneAwarenessEnabled := true }
          ["z1", "z2", "z3"]) = some st
      ∧ nonExtendingCountInZone WriteNoExtend "z1" st.instances
          ≤ (3 + 3 - 1) / 3 := by
  cases hst : getLoop
      [("a", { id := "a", addr := "a1", state := .ACTIVE, zone := "z1",
               registeredTimestamp := 0, timestamp := 0, tokens := [5] }),
       ("b", { id := "b", addr := "b1", state := .ACTIVE, zone := "z2",
               registeredTimestamp := 0, timestamp := 0, tokens := [9] }),
       ("c", { id := "c", addr := "c1", state := .ACTIVE, zone := "z3",
               registeredTimestamp := 0, timestamp := 0, tokens := [13] })]
      [5, 9, 13]
      (fun t => if t = 5 then some ⟨"a", "z1"⟩
                else if t = 9 then some ⟨"b", "z2"⟩ else some ⟨"c", "z3"⟩)
      { replicationFactor := 3, zoneAwarenessEnabled := true } WriteNoExtend
      (3 / 3) 3 (searchToken [5, 9, 13] 2)
      (getInitState { replicationFactor := 3, zoneAwarenessEnabled := true }
        ["z1", "z2", "z3"]) with
  | none =>
      have hks : (getLoop
          [("a", { id := "a", addr := "a1", state := .ACTIVE, zone := "z1",
                   registeredTimestamp := 0, timestamp := 0, tokens := [5] }),
           ("b", { id := "b", addr := "b1", state := .ACTIVE, zone := "z2",
                   registeredTimestamp := 0, timestamp := 0, tokens := [9] }),
           ("c", { id := "c", addr := "c1", state := .ACTIVE, zone := "z3",
                   registeredTimestamp := 0, timestamp := 0, tokens := [13] })]
          [5, 9, 13]
          (fun t => if t = 5 then some ⟨"a", "z1"⟩
                    else if t = 9 then some ⟨"b", "z2"⟩ else some ⟨"c", "z3"⟩)
          { replicationFactor := 3, zoneAwarenessEnabled := true } WriteNoExtend
          (3 / 3) 3 (searchToken [5, 9, 13] 2)
          (getInitState { replicationFactor := 3, zoneAwarenessEnabled := true }
            ["z1", "z2", "z3"])).isSome = true := by decide
      rw [hst] at hks
      simp at hks
  | some st =>
      refine ⟨st, rfl, ?_⟩
      exact get_zone_balance
        [("a", { id := "a", addr := "a1", state := .ACTIVE, zone := "z1",
                 registeredTimestamp := 0, timestamp := 0, tokens := [5] }),
         ("b", { id := "b", addr := "b1", state := .ACTIVE, zone := "z2",
                 registeredTimestamp := 0, timestamp := 0, tokens := [9] }),
         ("c", { id := "c", addr := "c1", state := .ACTIVE, zone := "z3",
                 registeredTimestamp := 0, timestamp := 0, tokens := [13] })]
        [5, 9, 13]
        (fun t => if t = 5 then some ⟨"a", "z1"⟩
                  else if t = 9 then some ⟨"b", "z2"⟩ else some ⟨"c", "z3"⟩)
        ["z1", "z2", "z3"]
        { replicationFactor := 3, zoneAwarenessEnabled := true } WriteNoExtend 2
        rfl (by decide) (by decide)
        (by
          intro t info h
          simp only at h
          split at h
          · cases h
            rfl
          · split at h
            · cases h
              rfl
            · cases h
              rfl)
        st hst "z1" (by decide)

/-- C3 counterexample to the claim as stated (the cap applies to every zone,
including the empty-named one): RF = 3, three ring zones `["", "a", "b"]`
(`|zones| ≥ RF`), three `ACTIVE` instances with an empty zone first on the
walk; the `Get` candidate set ends up with 3 non-extending instances in zone
`""`, exceeding `ceil(3/3) = 1`. -/
theorem get_zone_balance_counterexample :
    ((getLoop
        [("u", { id := "u", addr := "u1", state := .ACTIVE, zone := "",
                 registeredTimestamp := 0, timestamp := 0, tokens := [10] }),
         ("v", { id := "v", addr := "v1", state := .ACTIVE, zone := "",
                 registeredTimestamp := 0, timestamp := 0, tokens := [20] }),
         ("w", { id := "w", addr := "w1", state := .ACTIVE, zone := "",
                 registeredTimestamp := 0, timestamp := 0, tokens := [30] }),
         ("x", { id := "x", addr := "x1", state := .ACTIVE, zone := "a",
                 registeredTimestamp := 0, timestamp := 0, tokens := [40] }),
         ("y", { id := "y", addr := "y1", state := .ACTIVE, zone := "b",
                 registeredTimestamp := 0, timestamp := 0, tokens := [50] })]
        [10, 20, 30, 40, 50]
        (fun t => if t = 10 then some ⟨"u", ""⟩
                  else if t = 20 then some ⟨"v", ""⟩
                  else if t = 30 then some ⟨"w", ""⟩
                  else if t = 40 then some ⟨"x", "a"⟩ else some ⟨"y", "b"⟩)
        { replicationFactor := 3, zoneAwarenessEnabled := true } WriteNoExtend
        (3 / 3) 5 (searchToken [10, 20, 30, 40, 50] 5)
        (getInitState { replicationFactor := 3, zoneAwarenessEnabled := true }
          ["", "a", "b"])).map
      (fun st => nonExtendingCountInZone WriteNoExtend "" st.instances)) = some 3
    ∧ (3 : Nat) > (3 + 3 - 1) / 3
    ∧ (3 : Nat) ≤ ([("" : String), "a", "b"]).length := by
  refine ⟨by decide, by decide, by decide⟩

/-- Closed-form check of `get_distinct_ids` on a two-instance, two-zone ring
with RF = 2: the returned ids `["a", "b"]` are distinct. -/
theorem get_distinct_ids_witness :
    (get (some [("a", { id := "a", addr := "a1", state := .ACTIVE, zone := "z1",
                        registeredTimestamp := 0, timestamp := 0, tokens := [5] }),
                ("b", { id := "b", addr := "b1", state := .ACTIVE, zone := "z2",
                        registeredTimestamp := 0, timestamp := 0, tokens := [9] })])
        [5, 9] (fun t => if t = 5 then some ⟨"a", "z1"⟩ else some ⟨"b", "z2"⟩)
        ["z1", "z2"] { replicationFactor := 2, zoneAwarenessEnabled := true }
        WriteNoExtend 3 (fun _ => true)
      = .ok { instances :=
                [{ id := "a", addr := "a1", state := .ACTIVE, zone := "z1",
                   registeredTimestamp := 0, timestamp := 0, tokens := [5] },
                 { id := "b", addr := "b1", state := .ACTIVE, zone := "z2",
                   registeredTimestamp := 0, timestamp := 0, tokens := [9] }],
              maxErrors := 0, maxUnavailableZones := 0 })
    ∧ (([{ id := "a", addr := "a1", state := InstanceState.ACTIVE, zone := "z1",
           registeredTimestamp := 0, timestamp := 0, tokens := [5] },
         { id := "b", addr := "b1", state := InstanceState.ACTIVE, zone := "z2",
           registeredTimestamp := 0, timestamp := 0, tokens := [9] }].map
          InstanceDesc.id).Nodup) := by
  constructor
  · rfl
  · exact get_distinct_ids
      [("a", { id := "a", addr := "a1", state := .ACTIVE, zone := "z1",
               registeredTimestamp := 0, timestamp := 0, tokens := [5] }),
       ("b", { id := "b", addr := "b1", state := .ACTIVE, zone := "z2",
               registeredTimestamp := 0, timestamp := 0, tokens := [9] })]
      [5, 9] (fun t => if t = 5 then some ⟨"a", "z1"⟩ else some ⟨"b", "z2"⟩)
      ["z1", "z2"] { replicationFactor := 2, zoneAwarenessEnabled := true }
      WriteNoExtend 3 (fun _ => true)
      (by
        intro t info h
        simp only at h
        split at h
        · cases h
          rfl
        · cases h
          rfl)
      { instances :=
          [{ id := "a", addr := "a1", state := .ACTIVE, zone := "z1",
             registeredTimestamp := 0, timestamp := 0, tokens := [5] },
           { id := "b", addr := "b1", state := .ACTIVE, zone := "z2",
             registeredTimestamp := 0, timestamp := 0, tokens := [9] }],
        maxErrors := 0, maxUnavailableZones := 0 }
      rfl

theorem strContains_append (l1 l2 : List String) (x : String) :
    List.contains (l1 ++ l2) x = (List.contains l1 x || List.contains l2 x) := by
  rw [Bool.eq_iff_iff]
  simp [List.contains, List.elem_iff, List.mem_append]

theorem strContains_singleton (a x : String) :
    List.contains [a] x = (x == a) := by
  rw [Bool.eq_iff_iff]
  simp [List.contains, List.elem_iff]

theorem shardMem_append (shard added : Desc) :
    shardMem (shard ++ added)
      = fun x => shardMem shard x || List.contains (added.map Prod.fst) x := by
  funext x
  unfold shardMem
  rw [List.map_append, strContains_append]

theorem shardMem_append_single (shard : Desc) (q : String × InstanceDesc) :
    shardMem (shard ++ [q]) = fun x => shardMem shard x || x == q.1 := by
  funext x
  unfold shardMem
  rw [List.map_append, strContains_append, List.map_cons, List.map_nil,
    strContains_singleton]

theorem shardWalk_eq_delta (resolve : Nat → Option InstanceInfo) (ingesters : Desc)
    (tokens : List Nat) (lp lu : Int)
    (Hres : ∀ t, (resolve t).isSome = true) :
    ∀ fuel p shard,
      shardWalk resolve ingesters tokens lp lu fuel p shard
        = some (shard
              ++ (shardWalkD resolve ingesters tokens lp lu (shardMem shard) fuel p).1,
            (shardWalkD resolve ingesters tokens lp lu (shardMem shard) fuel p).2) := by
  intro fuel
  induction fuel with
  | zero =>
      intro p shard
      simp [shardWalk, shardWalkD]
  | succ n ih =>
      intro p shard
      rw [shardWalk, shardWalkD]
      cases hres : resolve (tokens.getD (p % tokens.length) 0) with
      | none =>
          have := Hres (tokens.getD (p % tokens.length) 0)
          rw [hres] at this
          cases this
      | some info =>
          dsimp only
          by_cases hmem : shardMem shard info.instanceID = true
          · rw [if_pos (show List.contains (shard.map Prod.fst) info.instanceID
                = true from hmem), if_pos hmem]
            exact ih _ _
          · rw [if_neg (show ¬List.contains (shard.map Prod.fst) info.instanceID
                = true from hmem), if_neg hmem]
            by_cases hcond : shuffleExtendCond lp lu (ingesters.lookup info.instanceID) = true
            · rw [if_pos hcond, if_pos hcond]
              rw [ih _ (shard ++ [(info.instanceID, ingesters.lookup info.instanceID)])]
              rw [shardMem_append_single shard
                (info.instanceID, ingesters.lookup info.instanceID)]
              rw [List.append_assoc]
              rfl
            · rw [if_neg hcond, if_neg hcond]

theorem getD_mem_of_lt (l : List Nat) (i : Nat) (h : i < l.length) : l.getD i 0 ∈ l := by
  rw [List.getD_eq_getElem l 0 h]
  exact List.getElem_mem h

theorem shardWalkD_congr (resolve : Nat → Option InstanceInfo) (ingesters : Desc)
    (tokens : List Nat) (lp lu : Int) :
    ∀ fuel p (mem1 mem2 : String → Bool),
      fuel ≤ tokens.length →
      (∀ t ∈ tokens, ∀ info, resolve t = some info
        → mem1 info.instanceID = mem2 info.instanceID) →
      shardWalkD resolve ingesters tokens lp lu mem1 fuel p
        = shardWalkD resolve ingesters tokens lp lu mem2 fuel p := by
  intro fuel
  induction fuel with
  | zero => intro p mem1 mem2 _ _; rfl
  | succ n ih =>
      intro p mem1 mem2 hfuel hagree
      have hlen : 0 < tokens.length := by omega
      have htok : tokens.getD (p % tokens.length) 0 ∈ tokens :=
        getD_mem_of_lt tokens (p % tokens.length) (Nat.mod_lt p hlen)
      rw [shardWalkD, shardWalkD]
      cases hres : resolve (tokens.getD (p % tokens.length) 0) with
      | none => rfl
      | some info =>
          dsimp only
          rw [hagree _ htok info hres]
          by_cases hmem : mem2 info.instanceID = true
          · rw [if_pos hmem, if_pos hmem]
            exact ih _ _ _ (by omega) hagree
          · rw [if_neg hmem, if_neg hmem]
            by_cases hcond : shuffleExtendCond lp lu (ingesters.lookup info.instanceID) = true
            · rw [if_pos hcond, if_pos hcond]
              rw [ih (p % tokens.length + 1)
                (fun x => mem1 x || x == info.instanceID)
                (fun x => mem2 x || x == info.instanceID) (by omega)
                (fun t ht i hi => by dsimp only; rw [hagree t ht i hi])]
            · rw [if_neg hcond, if_neg hcond]

theorem shardWalkD_ids (resolve : Nat → Option InstanceInfo) (ingesters : Desc)
    (tokens : List Nat) (lp lu : Int) :
    ∀ fuel p (mem : String → Bool),
      fuel ≤ tokens.length →
      ∀ q ∈ (shardWalkD resolve ingesters tokens lp lu mem fuel p).1,
        ∃ t ∈ tokens, ∃ info, resolve t = some info
          ∧ q = (info.instanceID, ingesters.lookup info.instanceID) := by
  intro fuel
  induction fuel with
  | zero =>
      intro p mem _ q hq
      cases hq
  | succ n ih =>
      intro p mem hfuel q hq
      have hlen : 0 < tokens.length := by omega
      have htok : tokens.getD (p % tokens.length) 0 ∈ tokens :=
        getD_mem_of_lt tokens (p % tokens.length) (Nat.mod_lt p hlen)
      rw [shardWalkD] at hq
      cases hres : resolve (tokens.getD (p % tokens.length) 0) with
      | none =>
          rw [hres] at hq
          cases hq
      | some info =>
          rw [hres] at hq
          dsimp only at hq
          by_cases hmem : mem info.instanceID = true
          · rw [if_pos hmem] at hq
            exact ih _ _ (by omega) q hq
          · rw [if_neg hmem] at hq
            by_cases hcond : shuffleExtendCond lp lu (ingesters.lookup info.instanceID)
                = true
            · rw [if_pos hcond] at hq
              cases hq with
              | head =>
                  exact ⟨_, htok, info, hres, rfl⟩
              | tail _ hq' =>
                  exact ih _ _ (by omega) q hq'
            · rw [if_neg hcond] at hq
              cases hq with
              | head => exact ⟨_, htok, info, hres, rfl⟩
              | tail _ hq' => cases hq'

theorem shardZonePicks_eq_delta (resolve : Nat → Option InstanceInfo) (ingesters : Desc)
    (tokens : List Nat) (lp lu : Int) (rng : Nat → Nat)
    (Hres : ∀ t, (resolve t).isSome = true) :
    ∀ n drawIdx shard,
      shardZonePicks resolve ingesters tokens lp lu rng n drawIdx shard
        = some (shard ++ shardZonePicksD resolve ingesters tokens lp lu rng
            (shardMem shard) n drawIdx) := by
  intro n
  induction n with
  | zero =>
      intro drawIdx shard
      simp [shardZonePicks, shardZonePicksD]
  | succ m ih =>
      intro drawIdx shard
      rw [shardZonePicks, shardZonePicksD]
      rw [shardWalk_eq_delta resolve ingesters tokens lp lu Hres]
      dsimp only
      by_cases hfound : (shardWalkD resolve ingesters tokens lp lu (shardMem shard)
          tokens.length (searchToken tokens (rng drawIdx))).2 = true
      · rw [if_pos hfound, if_pos hfound]
        rw [ih (drawIdx + 1)]
        rw [shardMem_append]
        rw [List.append_assoc]
      · rw [if_neg hfound, if_neg hfound]

theorem shardZonePicksD_congr (resolve : Nat → Option InstanceInfo) (ingesters : Desc)
    (tokens : List Nat) (lp lu : Int) (rng : Nat → Nat) :
    ∀ n drawIdx (mem1 mem2 : String → Bool),
      (∀ t ∈ tokens, ∀ info, resolve t = some info
        → mem1 info.instanceID = mem2 info.instanceID) →
      shardZonePicksD resolve ingesters tokens lp lu rng mem1 n drawIdx
        = shardZonePicksD resolve ingesters tokens lp lu rng mem2 n drawIdx := by
  intro n
  induction n with
  | zero => intro drawIdx mem1 mem2 _; rfl
  | succ m ih =>
      intro drawIdx mem1 mem2 hagree
      have hw := shardWalkD_congr resolve ingesters tokens lp lu tokens.length
        (searchToken tokens (rng drawIdx)) mem1 mem2 (by omega) hagree
      rw [shardZonePicksD, shardZonePicksD, hw]
      by_cases hfound : (shardWalkD resolve ingesters tokens lp lu mem2
          tokens.length (searchToken tokens (rng drawIdx))).2 = true
      · rw [if_pos hfound, if_pos hfound]
        exact congrArg
          (fun l => (shardWalkD resolve ingesters tokens lp lu mem2
            tokens.length (searchToken tokens (rng drawIdx))).1 ++ l)
          (ih (drawIdx + 1) _ _
            (fun t ht i hi => by simp only [hagree t ht i hi]))
      · rw [if_neg hfound, if_neg hfound]

theorem shardZonePicksD_prefix (resolve : Nat → Option InstanceInfo) (ingesters : Desc)
    (tokens : List Nat) (lp lu : Int) (rng : Nat → Nat) :
    ∀ n1 n2 drawIdx (mem : String → Bool), n1 ≤ n2 →
      (shardZonePicksD resolve ingesters tokens lp lu rng mem n1 drawIdx)
        <+: (shardZonePicksD resolve ingesters tokens lp lu rng mem n2 drawIdx) := by
  intro n1
  induction n1 with
  | zero =>
      intro n2 drawIdx mem _
      exact List.nil_prefix
  | succ m ih =>
      intro n2 drawIdx mem h12
      cases n2 with
      | zero => omega
      | succ m2 =>
          rw [shardZonePicksD, shardZonePicksD]
          by_cases hfound : (shardWalkD resolve ingesters tokens lp lu mem
              tokens.length (searchToken tokens (rng drawIdx))).2 = true
          · rw [if_pos hfound, if_pos hfound]
            exact (List.prefix_append_right_inj _).mpr (ih m2 (drawIdx + 1) _ (by omega))
          · rw [if_neg hfound, if_neg hfound]

theorem shardZonePicksD_ids (resolve : Nat → Option InstanceInfo) (ingesters : Desc)
    (tokens : List Nat) (lp lu : Int) (rng : Nat → Nat) :
    ∀ n drawIdx (mem : String → Bool),
      ∀ q ∈ shardZonePicksD resolve ingesters tokens lp lu rng mem n drawIdx,
        ∃ t ∈ tokens, ∃ info, resolve t = some info
          ∧ q = (info.instanceID, ingesters.lookup info.instanceID) := by
  intro n
  induction n with
  | zero =>
      intro drawIdx mem q hq
      cases hq
  | succ m ih =>
      intro drawIdx mem q hq
      rw [shardZonePicksD] at hq
      by_cases hfound : (shardWalkD resolve ingesters tokens lp lu mem
          tokens.length (searchToken tokens (rng drawIdx))).2 = true
      · rw [if_pos hfound] at hq
        rw [List.mem_append] at hq
        cases hq with
        | inl hq' =>
            exact shardWalkD_ids resolve ingesters tokens lp lu tokens.length
              (searchToken tokens (rng drawIdx)) mem (by omega) q hq'
        | inr hq' => exact ih _ _ q hq'
      · rw [if_neg hfound] at hq
        exact shardWalkD_ids resolve ingesters tokens lp lu tokens.length
          (searchToken tokens (rng drawIdx)) mem (by omega) q hq

theorem shuffleShardZones_mem (resolve : Nat → Option InstanceInfo) (ingesters : Desc)
    (ringTokens : List Nat) (tokensByZone : String → List Nat) (zoneAware : Bool)
    (lp lu : Int) (rng : String → Nat → Nat) (perZone : Nat)
    (Hres : ∀ t, (resolve t).isSome = true) :
    ∀ (zones : List String) (e : Int) (S R : Desc),
      shuffleShardZones resolve ingesters ringTokens tokensByZone zoneAware lp lu rng
          perZone zones e S = some R →
      ∀ q ∈ R, q ∈ S ∨ ∃ info, (∃ t, resolve t = some info)
        ∧ q = (info.instanceID, ingesters.lookup info.instanceID) := by
  intro zones
  induction zones with
  | nil =>
      intro e S R h q hq
      rw [shuffleShardZones] at h
      cases h
      exact Or.inl hq
  | cons z rest ih =>
      intro e S R h q hq
      rw [shuffleShardZones] at h
      rw [shardZonePicks_eq_delta _ _ _ _ _ _ Hres] at h
      dsimp only at h
      rcases ih _ _ _ h q hq with hin | hex
      · rw [List.mem_append] at hin
        cases hin with
        | inl h' => exact Or.inl h'
        | inr h' =>
            obtain ⟨t, _, info, hres, hq'⟩ := shardZonePicksD_ids resolve ingesters
              _ lp lu (rng z) _ _ _ q h'
            exact Or.inr ⟨info, ⟨t, hres⟩, hq'⟩
      · exact Or.inr hex

theorem shuffleShardZones_mono (resolve : Nat → Option InstanceInfo) (ingesters : Desc)
    (ringTokens : List Nat) (tokensByZone : String → List Nat) (zoneAware : Bool)
    (lp lu : Int) (rng : String → Nat → Nat) (n1 n2 : Nat)
    (Hres : ∀ t, (resolve t).isSome = true) :
    ∀ (zones : List String) (e1 e2 : Int) (S1 S2 R1 R2 : Desc),
      n1 ≤ n2 → (n1 = n2 → e1 ≤ e2) →
      (∀ q ∈ S1, q ∈ S2) →
      (∀ z ∈ zones, ∀ t ∈ (if zoneAware then tokensByZone z else ringTokens),
        ∀ info, resolve t = some info →
          shardMem S1 info.instanceID = shardMem S2 info.instanceID) →
      List.Pairwise (fun z1 z2 =>
        ∀ t1 ∈ (if zoneAware then tokensByZone z1 else ringTokens),
        ∀ t2 ∈ (if zoneAware then tokensByZone z2 else ringTokens),
        ∀ i1 i2, resolve t1 = some i1 → resolve t2 = some i2 →
          i1.instanceID ≠ i2.instanceID) zones →
      shuffleShardZones resolve ingesters ringTokens tokensByZone zoneAware lp lu rng
          n1 zones e1 S1 = some R1 →
      shuffleShardZones resolve ingesters ringTokens tokensByZone zoneAware lp lu rng
          n2 zones e2 S2 = some R2 →
      ∀ q ∈ R1, q ∈ R2 := by
  intro zones
  induction zones with
  | nil =>
      intro e1 e2 S1 S2 R1 R2 _ _ hS _ _ h1 h2 q hq
      rw [shuffleShardZones] at h1 h2
      cases h1
      cases h2
      exact hS q hq
  | cons z rest ih =>
      intro e1 e2 S1 S2 R1 R2 hn hne hS hagree hpw h1 h2 q hq
      rw [shuffleShardZones] at h1 h2
      rw [shardZonePicks_eq_delta _ _ _ _ _ _ Hres] at h1 h2
      dsimp only at h1 h2
      have hpwz := (List.pairwise_cons.mp hpw).1
      have hpwrest := (List.pairwise_cons.mp hpw).2
      have hagreeZ : ∀ t ∈ (if zoneAware then tokensByZone z else ringTokens),
          ∀ info, resolve t = some info →
            shardMem S1 info.instanceID = shardMem S2 info.instanceID :=
        hagree z (List.mem_cons_self z rest)
      have hn' : (if e1 > 0 then n1 + 1 else n1) ≤ (if e2 > 0 then n2 + 1 else n2) := by
        rcases Nat.lt_or_ge n1 n2 with hlt | hge
        · split <;> split <;> omega
        · have heq : n1 = n2 := by omega
          have he := hne heq
          subst heq
          split <;> split <;> omega
      have hA1eq : shardZonePicksD resolve ingesters
            (if zoneAware then tokensByZone z else ringTokens) lp lu (rng z)
            (shardMem S1) (if e1 > 0 then n1 + 1 else n1) 0
          = shardZonePicksD resolve ingesters
            (if zoneAware then tokensByZone z else ringTokens) lp lu (rng z)
            (shardMem S2) (if e1 > 0 then n1 + 1 else n1) 0 :=
        shardZonePicksD_congr resolve ingesters _ lp lu (rng z) _ 0
          (shardMem S1) (shardMem S2) hagreeZ
      have hpre : shardZonePicksD resolve ingesters
            (if zoneAware then tokensByZone z else ringTokens) lp lu (rng z)
            (shardMem S2) (if e1 > 0 then n1 + 1 else n1) 0
          <+: shardZonePicksD resolve ingesters
            (if zoneAware then tokensByZone z else ringTokens) lp lu (rng z)
            (shardMem S2) (if e2 > 0 then n2 + 1 else n2) 0 :=
        shardZonePicksD_prefix resolve ingesters _ lp lu (rng z) _ _ 0
          (shardMem S2) hn'
      have hS' : ∀ p ∈ S1 ++ shardZonePicksD resolve ingesters
            (if zoneAware then tokensByZone z else ringTokens) lp lu (rng z)
            (shardMem S1) (if e1 > 0 then n1 + 1 else n1) 0,
          p ∈ S2 ++ shardZonePicksD resolve ingesters
            (if zoneAware then tokensByZone z else ringTokens) lp lu (rng z)
            (shardMem S2) (if e2 > 0 then n2 + 1 else n2) 0 := by
        intro p hp
        rw [List.mem_append] at hp ⊢
        cases hp with
        | inl hp' => exact Or.inl (hS p hp')
        | inr hp' =>
            rw [hA1eq] at hp'
            exact Or.inr (hpre.sublist.mem hp')
      have hAid : ∀ (mem : String → Bool) (m : Nat) (x : String),
          (∃ p ∈ shardZonePicksD resolve ingesters
              (if zoneAware then tokensByZone z else ringTokens) lp lu (rng z)
              mem m 0, p.1 = x) →
          ∃ t1 ∈ (if zoneAware then tokensByZone z else ringTokens),
            ∃ i1, resolve t1 = some i1 ∧ i1.instanceID = x := by
        intro mem m x ⟨p, hp, hpx⟩
        obtain ⟨t1, ht1, i1, hres1, hpq⟩ := shardZonePicksD_ids resolve ingesters
          _ lp lu (rng z) m 0 mem p hp
        refine ⟨t1, ht1, i1, hres1, ?_⟩
        rw [hpq] at hpx
        exact hpx
      have hagree' : ∀ z' ∈ rest,
          ∀ t ∈ (if zoneAware then tokensByZone z' else ringTokens),
          ∀ info, resolve t = some info →
            shardMem (S1 ++ shardZonePicksD resolve ingesters
                (if zoneAware then tokensByZone z else ringTokens) lp lu (rng z)
                (shardMem S1) (if e1 > 0 then n1 + 1 else n1) 0) info.instanceID
              = shardMem (S2 ++ shardZonePicksD resolve ingesters
                (if zoneAware then tokensByZone z else ringTokens) lp lu (rng z)
                (shardMem S2) (if e2 > 0 then n2 + 1 else n2) 0) info.instanceID := by
        intro z' hz' t ht info hres
        rw [shardMem_append, shardMem_append]
        dsimp only
        have hnotin : ∀ (mem : String → Bool) (m : Nat),
            List.contains ((shardZonePicksD resolve ingesters
              (if zoneAware then tokensByZone z else ringTokens) lp lu (rng z)
              mem m 0).map Prod.fst) info.instanceID = false := by
          intro mem m
          rw [Bool.eq_false_iff]
          intro hcon
          have hx : ∃ p ∈ shardZonePicksD resolve ingesters
              (if zoneAware then tokensByZone z else ringTokens) lp lu (rng z)
              mem m 0, p.1 = info.instanceID := by
            have := (by
              simpa [List.contains, List.elem_iff, List.mem_map] using hcon :
              ∃ p ∈ shardZonePicksD resolve ingesters
                (if zoneAware then tokensByZone z else ringTokens) lp lu (rng z)
                mem m 0, p.1 = info.instanceID)
            exact this
          obtain ⟨t1, ht1, i1, hres1, hix⟩ := hAid mem m info.instanceID hx
          exact hpwz z' hz' t1 ht1 t ht i1 info hres1 hres hix
        rw [hnotin, hnotin]
        simp only [Bool.or_false]
        exact hagree z' (List.mem_cons_of_mem z hz') t ht info hres
      have hne' : n1 = n2 →
          (if e1 > 0 then e1 - 1 else e1) ≤ (if e2 > 0 then e2 - 1 else e2) := by
        intro heq
        have he := hne heq
        split <;> split <;> omega
      exact ih _ _ _ _ _ _ hn hne' hS' hagree' hpwrest h1 h2 q hq

theorem shuffleShard_mem (ringDesc : Desc) (ringTokens : List Nat)
    (tokensByZone : String → List Nat) (ringZones : List String)
    (resolve : Nat → Option InstanceInfo) (cfg : RingConfig)
    (rng : String → Nat → Nat) (size : Nat) (lp now : Int) (zs : Bool)
    (Hres : ∀ t, (resolve t).isSome = true) (R : Desc)
    (h : shuffleShard ringDesc ringTokens tokensByZone ringZones resolve cfg rng
        size lp now zs = some R) :
    ∀ q ∈ R, ∃ info, (∃ t, resolve t = some info)
      ∧ q = (info.instanceID, Desc.lookup ringDesc info.instanceID) := by
  intro q hq
  unfold shuffleShard at h
  have hmem : q ∈ ([] : Desc) ∨ ∃ info, (∃ t, resolve t = some info)
      ∧ q = (info.instanceID, Desc.lookup ringDesc info.instanceID) := by
    split at h
    · split at h
      · exact shuffleShardZones_mem resolve ringDesc ringTokens tokensByZone true
          lp (now - lp) rng _ Hres ringZones _ [] R h q hq
      · exact shuffleShardZones_mem resolve ringDesc ringTokens tokensByZone true
          lp (now - lp) rng _ Hres ringZones _ [] R h q hq
    · exact shuffleShardZones_mem resolve ringDesc ringTokens tokensByZone false
        lp (now - lp) rng _ Hres [""] _ [] R h q hq
  rcases hmem with hnil | hex
  · cases hnil
  · exact hex

/-- C4 (amended: the shard sizes must be positive — `ShuffleShard(id, s)` with
`s ≤ 0` deliberately returns the whole parent ring): shuffle sharding is
monotone in shard size for a fixed descriptor and draw stream: for
`0 < s1 < s2`, every instance of the subring for `s1` is in the subring for
`s2` — for the default variant when both sizes are multiples of the zone
count, and for the zone-stable variant always. -/
theorem shuffleShard_monotone (ringDesc : Desc) (ringTokens : List Nat)
    (tokensByZone : String → List Nat) (ringZones : List String)
    (resolve : Nat → Option InstanceInfo) (cfg : RingConfig)
    (rng : String → Nat → Nat) (zoneStableSharding : Bool)
    (Hres : ∀ t, (resolve t).isSome = true)
    (Hpair : List.Pairwise (fun z1 z2 =>
        ∀ t1 ∈ tokensByZone z1, ∀ t2 ∈ tokensByZone z2,
        ∀ i1 i2, resolve t1 = some i1 → resolve t2 = some i2 →
          i1.instanceID ≠ i2.instanceID) ringZones)
    (Hlookup : ∀ t info, resolve t = some info →
        (info.instanceID, Desc.lookup ringDesc info.instanceID) ∈ ringDesc)
    (hZ : 0 < ringZones.length)
    (s1 s2 : Int) (h1pos : 0 < s1) (h12 : s1 < s2)
    (hvariant : zoneStableSharding = true
      ∨ (s1 % (ringZones.length : Int) = 0 ∧ s2 % (ringZones.length : Int) = 0))
    (R1 R2 : Desc)
    (hr1 : shuffleShardNoLookback ringDesc ringTokens tokensByZone ringZones resolve
        cfg rng s1 zoneStableSharding = some R1)
    (hr2 : shuffleShardNoLookback ringDesc ringTokens tokensByZone ringZones resolve
        cfg rng s2 zoneStableSharding = some R2) :
    ∀ q ∈ R1, q ∈ R2 := by
  unfold shuffleShardNoLookback at hr1 hr2
  by_cases hex1 : s1 ≤ 0 ∨ (ringDesc.length : Int) ≤ s1
  · have hcount : (ringDesc.length : Int) ≤ s1 := by
      rcases hex1 with h | h
      · omega
      · exact h
    rw [if_pos hex1] at hr1
    rw [if_pos (Or.inr (by omega : (ringDesc.length : Int) ≤ s2))] at hr2
    cases hr1
    cases hr2
    exact fun q hq => hq
  · rw [if_neg hex1] at hr1
    by_cases hex2 : s2 ≤ 0 ∨ (ringDesc.length : Int) ≤ s2
    · rw [if_pos hex2] at hr2
      cases hr2
      intro q hq
      obtain ⟨info, ⟨t, hres⟩, hq'⟩ := shuffleShard_mem ringDesc ringTokens
        tokensByZone ringZones resolve cfg rng s1.toNat 0 0 zoneStableSharding
        Hres R1 hr1 q hq
      rw [hq']
      exact Hlookup t info hres
    · rw [if_neg hex2] at hr2
      have hs12 : s1.toNat ≤ s2.toNat := by omega
      unfold shuffleShard at hr1 hr2
      by_cases hza : cfg.zoneAwarenessEnabled = true
      · rw [if_pos hza] at hr1 hr2
        by_cases hzs : zoneStableSharding = true
        · rw [if_pos hzs] at hr1 hr2
          have hne : s1.toNat / ringZones.length = s2.toNat / ringZones.length →
              ((s1.toNat : Int) % (ringZones.length : Int))
                ≤ ((s2.toNat : Int) % (ringZones.length : Int)) := by
            intro hdeq
            have hd1 := Nat.div_add_mod s1.toNat ringZones.length
            have hd2 := Nat.div_add_mod s2.toNat ringZones.length
            rw [← hdeq] at hd2
            omega
          exact shuffleShardZones_mono resolve ringDesc ringTokens tokensByZone true
            0 (0 - 0) rng (s1.toNat / ringZones.length) (s2.toNat / ringZones.length)
            Hres ringZones _ _ [] [] R1 R2
            (Nat.div_le_div_right hs12) hne (fun q hq => hq)
            (fun z _ t _ info _ => rfl) Hpair hr1 hr2
        · rw [if_neg hzs] at hr1 hr2
          exact shuffleShardZones_mono resolve ringDesc ringTokens tokensByZone true
            0 (0 - 0) rng
            (shuffleShardExpectedInstancesPerZone s1.toNat ringZones.length)
            (shuffleShardExpectedInstancesPerZone s2.toNat ringZones.length)
            Hres ringZones _ _ [] [] R1 R2
            (Nat.div_le_div_right (by omega)) (fun _ => le_refl 0)
            (fun q hq => hq) (fun z _ t _ info _ => rfl) Hpair hr1 hr2
      · rw [if_neg hza] at hr1 hr2
        exact shuffleShardZones_mono resolve ringDesc ringTokens tokensByZone false
          0 (0 - 0) rng s1.toNat s2.toNat Hres [""] _ _ [] [] R1 R2
          hs12 (fun _ => le_refl 0) (fun q hq => hq)
          (fun z _ t _ info _ => rfl)
          (List.pairwise_singleton _ _) hr1 hr2

/-- Closed-form check of `shuffleShard_monotone`: a single-zone three-instance
ring, zone-stable sharding, sizes 1 < 2: the size-1 shard (instance `a`) is
contained in the size-2 shard (instances `a`, `b`). -/
theorem shuffleShard_monotone_witness :
    (("a", { id := "a", addr := "a1", state := .ACTIVE, zone := "z",
             registeredTimestamp := 0, timestamp := 0, tokens := [5] })
        : String × InstanceDesc)
      ∈ ([("a",
        { id := "a", addr := "a1", state := .ACTIVE, zone := "z",
          registeredTimestamp := 0, timestamp := 0, tokens := [5] }),
        ("b",
        { id := "b", addr := "b1", state := .ACTIVE, zone := "z",
          registeredTimestamp := 0, timestamp := 0, tokens := [9] })] : Desc) := by
  refine shuffleShard_monotone
    [("a", { id := "a", addr := "a1", state := .ACTIVE, zone := "z",
             registeredTimestamp := 0, timestamp := 0, tokens := [5] }),
     ("b", { id := "b", addr := "b1", state := .ACTIVE, zone := "z",
             registeredTimestamp := 0, timestamp := 0, tokens := [9] }),
     ("c", { id := "c", addr := "c1", state := .ACTIVE, zone := "z",
             registeredTimestamp := 0, timestamp := 0, tokens := [13] })]
    [5, 9, 13] (fun _ => [5, 9, 13]) ["z"]
    (fun t => if t = 5 then some ⟨"a", "z"⟩
              else if t = 9 then some ⟨"b", "z"⟩ else some ⟨"c", "z"⟩)
    { replicationFactor := 3, zoneAwarenessEnabled := true }
    (fun _ _ => 0) true
    (by
      intro t
      dsimp only
      split
      · rfl
      · split
        · rfl
        · rfl)
    (List.pairwise_singleton _ _)
    (by
      intro t info h
      dsimp only at h
      split at h
      · cases h
        decide
      · split at h
        · cases h
          decide
        · cases h
          decide)
    (by decide) 1 2 (by decide) (by decide) (Or.inl rfl)
    ([("a", { id := "a", addr := "a1", state := .ACTIVE, zone := "z",
              registeredTimestamp := 0, timestamp := 0, tokens := [5] })] : Desc)
    ([("a", { id := "a", addr := "a1", state := .ACTIVE, zone := "z",
              registeredTimestamp := 0, timestamp := 0, tokens := [5] }),
      ("b", { id := "b", addr := "b1", state := .ACTIVE, zone := "z",
              registeredTimestamp := 0, timestamp := 0, tokens := [9] })] : Desc)
    (by decide) (by decide)
    ("a", { id := "a", addr := "a1", state := .ACTIVE, zone := "z",
            registeredTimestamp := 0, timestamp := 0, tokens := [5] })
    (by decide)

/-- C4 counterexample to the claim as stated: with `s1 = 0 < s2 = 1` on a
two-instance single-zone ring, `ShuffleShardWithZoneStability` returns the
whole parent ring for `s1 = 0` (the `size ≤ 0` early exit) but only one
instance for `s2 = 1`, so the `s1` subring is not contained in the `s2`
subring. -/
theorem shuffleShard_monotone_counterexample :
    shuffleShardNoLookback
        [("a", { id := "a", addr := "a1", state := .ACTIVE, zone := "z",
                 registeredTimestamp := 0, timestamp := 0, tokens := [5] }),
         ("b", { id := "b", addr := "b1", state := .ACTIVE, zone := "z",
                 registeredTimestamp := 0, timestamp := 0, tokens := [9] })]
        [5, 9] (fun _ => [5, 9]) ["z"]
        (fun t => if t = 5 then some ⟨"a", "z"⟩ else some ⟨"b", "z"⟩)
        { replicationFactor := 3, zoneAwarenessEnabled := true }
        (fun _ _ => 0) 0 true
      = some [("a", { id := "a", addr := "a1", state := .ACTIVE, zone := "z",
                      registeredTimestamp := 0, timestamp := 0, tokens := [5] }),
              ("b", { id := "b", addr := "b1", state := .ACTIVE, zone := "z",
                      registeredTimestamp := 0, timestamp := 0, tokens := [9] })]
    ∧ shuffleShardNoLookback
        [("a", { id := "a", addr := "a1", state := .ACTIVE, zone := "z",
                 registeredTimestamp := 0, timestamp := 0, tokens := [5] }),
         ("b", { id := "b", addr := "b1", state := .ACTIVE, zone := "z",
                 registeredTimestamp := 0, timestamp := 0, tokens := [9] })]
        [5, 9] (fun _ => [5, 9]) ["z"]
        (fun t => if t = 5 then some ⟨"a", "z"⟩ else some ⟨"b", "z"⟩)
        { replicationFactor := 3, zoneAwarenessEnabled := true }
        (fun _ _ => 0) 1 true
      = some [("a", { id := "a", addr := "a1", state := .ACTIVE, zone := "z",
                      registeredTimestamp := 0, timestamp := 0, tokens := [5] })]
    ∧ (("b", { id := "b", addr := "b1", state := InstanceState.ACTIVE, zone := "z",
               registeredTimestamp := 0, timestamp := 0, tokens := [9] })
        ∈ ([("a", { id := "a", addr := "a1", state := .ACTIVE, zone := "z",
                    registeredTimestamp := 0, timestamp := 0, tokens := [5] }),
            ("b", { id := "b", addr := "b1", state := .ACTIVE, zone := "z",
                    registeredTimestamp := 0, timestamp := 0, tokens := [9] })] : Desc))
    ∧ ¬(("b", { id := "b", addr := "b1", state := InstanceState.ACTIVE, zone := "z",
                registeredTimestamp := 0, timestamp := 0, tokens := [9] })
        ∈ ([("a", { id := "a", addr := "a1", state := .ACTIVE, zone := "z",
                    registeredTimestamp := 0, timestamp := 0, tokens := [5] })] : Desc)) := by
  refine ⟨by decide, by decide, by decide, by decide⟩

/-! ### Shuffle-shard walk: the extension rule (C2) -/

/-- C2: in the shuffle-shard selection walk, every instance the walk adds and
then keeps walking past satisfies the continuation condition —
`(lookbackPeriod > 0 and registered_timestamp ≥ now - lookbackPeriod) or
state = READONLY` — and when the walk reports a completed selection the last
added instance is exactly one failing that condition; when the walk ends
without a completed selection every added instance satisfied it. -/
theorem shardWalk_extension (resolve : Nat → Option InstanceInfo) (ingesters : Desc)
    (tokens : List Nat) (lookbackPeriod now : Int) :
    ∀ fuel p shard shard' found,
      shardWalk resolve ingesters tokens lookbackPeriod (now - lookbackPeriod)
          fuel p shard = some (shard', found) →
      ∃ added, shard' = shard ++ added
        ∧ (found = true → ∃ pre last, added = pre ++ [last]
            ∧ (∀ q ∈ pre,
                shuffleExtendCond lookbackPeriod (now - lookbackPeriod) q.2 = true)
            ∧ shuffleExtendCond lookbackPeriod (now - lookbackPeriod) last.2 = false)
        ∧ (found = false → ∀ q ∈ added,
            shuffleExtendCond lookbackPeriod (now - lookbackPeriod) q.2 = true) := by
  intro fuel
  induction fuel with
  | zero =>
      intro p shard shard' found h
      simp only [shardWalk] at h
      cases h
      refine ⟨[], by simp, ?_, ?_⟩
      · intro hcon
        cases hcon
      · intro _ q hq
        cases hq
  | succ n ih =>
      intro p shard shard' found h
      rw [shardWalk] at h
      split at h
      · cases h
      · rename_i info hres
        split at h
        · exact (ih _ _ _ _ h).imp fun added ⟨ha, hb, hc⟩ => ⟨ha, hb, hc⟩
        · split at h
          · rename_i hcond
            obtain ⟨added, ha, hb, hc⟩ := ih _ _ _ _ h
            refine ⟨(info.instanceID, ingesters.lookup info.instanceID) :: added, ?_, ?_, ?_⟩
            · rw [ha]
              simp
            · intro hf
              obtain ⟨pre, last, hadd, hpre, hlast⟩ := hb hf
              refine ⟨(info.instanceID, ingesters.lookup info.instanceID) :: pre, last,
                by rw [hadd]; rfl, ?_, hlast⟩
              intro q hq
              cases hq with
              | head => exact hcond
              | tail _ hq' => exact hpre q hq'
            · intro hf q hq
              cases hq with
              | head => exact hcond
              | tail _ hq' => exact hc hf q hq'
          · rename_i hcond
            cases h
            refine ⟨[(info.instanceID, ingesters.lookup info.instanceID)], rfl, ?_, ?_⟩
            · intro _
              refine ⟨[], (info.instanceID, ingesters.lookup info.instanceID), rfl, ?_, ?_⟩
              · intro q hq
                cases hq
              · simpa using hcond
            · intro hcon
              cases hcon

/-- Closed-form check of `shardWalk_extension`: with no lookback, a walk that
adds a `READONLY` instance keeps walking and ends on an `ACTIVE` instance:
the added list splits as extending instances followed by one non-extending
final selection. -/
theorem shardWalk_extension_witness :
    ∃ added,
      ([("a", { id := "a", addr := "a1", state := InstanceState.READONLY, zone := "z",
                registeredTimestamp := 0, timestamp := 0, tokens := [5] }),
        ("b", { id := "b", addr := "b1", state := InstanceState.ACTIVE, zone := "z",
                registeredTimestamp := 0, timestamp := 0, tokens := [9] })] : Desc)
          = [] ++ added
        ∧ (true = true → ∃ pre last, added = pre ++ [last]
            ∧ (∀ q ∈ pre, shuffleExtendCond 0 (0 - 0) q.2 = true)
            ∧ shuffleExtendCond 0 (0 - 0) last.2 = false)
        ∧ (true = false → ∀ q ∈ added, shuffleExtendCond 0 (0 - 0) q.2 = true) :=
  shardWalk_extension
    (fun t => if t = 5 then some ⟨"a", "z"⟩ else some ⟨"b", "z"⟩)
    [("a", { id := "a", addr := "a1", state := .READONLY, zone := "z",
             registeredTimestamp := 0, timestamp := 0, tokens := [5] }),
     ("b", { id := "b", addr := "b1", state := .ACTIVE, zone := "z",
             registeredTimestamp := 0, timestamp := 0, tokens := [9] })]
    [5, 9] 0 0 2 0 []
    [("a", { id := "a", addr := "a1", state := .READONLY, zone := "z",
             registeredTimestamp := 0, timestamp := 0, tokens := [5] }),
     ("b", { id := "b", addr := "b1", state := .ACTIVE, zone := "z",
             registeredTimestamp := 0, timestamp := 0, tokens := [9] })]
    true (by decide)

/-! ### Lemmas on the operation bitmap -/

theorem InstanceState.toNat_lt_16 (s : InstanceState) : s.toNat < 16 := by
  cases s <;> simp [InstanceState.toNat]

theorem InstanceState.toNat_inj {a b : InstanceState} (h : a.toNat = b.toNat) : a = b := by
  revert h; revert a b; decide

theorem testBit_healthyFold (hs : List InstanceState) (a k : Nat) :
    (List.foldl (fun op s => op ||| (1 <<< s.toNat)) a hs).testBit k
      = (a.testBit k || hs.any fun s => decide (s.toNat = k)) := by
  induction hs generalizing a with
  | nil => simp
  | cons s t ih =>
      rw [List.foldl_cons, ih, Nat.testBit_or, Nat.one_shiftLeft, Nat.testBit_two_pow]
      simp [List.any_cons, Bool.or_assoc]

theorem extendBit_eq_two_pow (t : Nat) : (0x10000 : Nat) <<< t = 2 ^ (16 + t) := by
  rw [Nat.shiftLeft_eq, pow_add]
  norm_num

theorem testBit_extendFold (states : List InstanceState) (f : InstanceState → Bool)
    (a k : Nat) (hk : k < 16) :
    (List.foldl (fun op s => if f s then op ||| (0x10000 <<< s.toNat) else op)
        a states).testBit k = a.testBit k := by
  induction states generalizing a with
  | nil => rfl
  | cons s t ih =>
      simp only [List.foldl_cons]
      by_cases h : f s
      · rw [if_pos h, ih]
        rw [Nat.testBit_or, extendBit_eq_two_pow, Nat.testBit_two_pow]
        have : ¬(16 + s.toNat = k) := by omega
        simp [this]
      · rw [if_neg h, ih]

theorem and_bit_pos_iff (op k : Nat) : op &&& (1 <<< k) > 0 ↔ op.testBit k = true := by
  rw [Nat.one_shiftLeft, Nat.and_two_pow]
  cases h : op.testBit k <;> simp [h, Nat.pos_pow_of_pos]

/-- C8: `IsInstanceInStateHealthy` on `NewOp hs ext` tests exactly membership
in the healthy-state list `hs`; the extend bits sit above bit 16 and never
interfere with the healthy bits below bit 16. -/
theorem isInstanceInStateHealthy_NewOp_iff_mem (hs : List InstanceState)
    (ext : Option (InstanceState → Bool)) (s : InstanceState) :
    (NewOp hs ext).IsInstanceInStateHealthy s = true ↔ s ∈ hs := by
  have hmem : ∀ (l : List InstanceState),
      (l.any fun x => decide (x.toNat = s.toNat)) = true ↔ s ∈ l := by
    intro l
    simp only [List.any_eq_true, decide_eq_true_eq]
    constructor
    · rintro ⟨x, hx, hEq⟩
      exact (InstanceState.toNat_inj hEq) ▸ hx
    · intro hx
      exact ⟨s, hx, rfl⟩
  unfold NewOp Operation.IsInstanceInStateHealthy
  cases ext with
  | none =>
      simp only [decide_eq_true_eq]
      rw [and_bit_pos_iff, testBit_healthyFold]
      simp [hmem]
  | some f =>
      simp only [decide_eq_true_eq]
      rw [and_bit_pos_iff, testBit_extendFold _ _ _ _ s.toNat_lt_16, testBit_healthyFold]
      simp [hmem]

/-! ### Auto-forget theorems -/

/-- C9: at a fixed evaluation time, `AutoForgetFromRing` keeps exactly the
instances whose heartbeat is not older than `now - forgetPeriod`, and running
it a second time changes nothing. -/
theorem autoForgetFromRing_idempotent (d : Desc) (forgetPeriod now : Int) :
    AutoForgetFromRing (AutoForgetFromRing d forgetPeriod now) forgetPeriod now
        = AutoForgetFromRing d forgetPeriod now
      ∧ ∀ p : String × InstanceDesc,
          p ∈ AutoForgetFromRing d forgetPeriod now
            ↔ p ∈ d ∧ ¬(p.2.timestamp < now - forgetPeriod) := by
  constructor
  · unfold AutoForgetFromRing
    rw [List.filter_filter]
    simp
  · intro p
    unfold AutoForgetFromRing
    rw [List.mem_filter]
    simp only [Bool.not_eq_true', decide_eq_false_iff_not, not_lt]
    constructor
    · rintro ⟨hp, hle⟩
      exact ⟨hp, by omega⟩
    · rintro ⟨hp, hle⟩
      exact ⟨hp, by omega⟩

/-- C7: a shuffle-shard cache hit patches only the state and heartbeat
timestamp of each cached instance from the parent ring's current descriptor:
the subring's token views, zone list, instance-id set and every other
instance field are unchanged, and every returned instance carries the
parent's current state and heartbeat timestamp. -/
theorem patchCachedSubring_spec (parent : Desc) (cached : SubringState) :
    (patchCachedSubring parent cached).ringTokens = cached.ringTokens
      ∧ (patchCachedSubring parent cached).ringTokensByZone = cached.ringTokensByZone
      ∧ (patchCachedSubring parent cached).ringZones = cached.ringZones
      ∧ (patchCachedSubring parent cached).ingesters.keys = cached.ingesters.keys
      ∧ ((patchCachedSubring parent cached).ingesters.map fun p =>
            (p.1, p.2.id, p.2.addr, p.2.zone, p.2.registeredTimestamp, p.2.tokens))
          = (cached.ingesters.map fun p =>
              (p.1, p.2.id, p.2.addr, p.2.zone, p.2.registeredTimestamp, p.2.tokens))
      ∧ ∀ p ∈ (patchCachedSubring parent cached).ingesters,
          p.2.state = (parent.lookup p.1).state
            ∧ p.2.timestamp = (parent.lookup p.1).timestamp := by
  refine And.intro rfl (And.intro rfl (And.intro rfl (And.intro ?_ (And.intro ?_ ?_))))
  · unfold patchCachedSubring Desc.keys
    rw [List.map_map]
    rfl
  · unfold patchCachedSubring
    rw [List.map_map]
    rfl
  · intro p hp
    unfold patchCachedSubring at hp
    simp only [List.mem_map] at hp
    obtain ⟨q, _, hq⟩ := hp
    rw [← hq]
    exact ⟨rfl, rfl⟩

theorem unhealthyZones_mem (d : Desc) (healthy : InstanceDesc → Bool) (z : String) :
    z ∈ unhealthyZones d healthy ↔ ∃ i ∈ d.values, healthy i = false ∧ i.zone = z := by
  unfold unhealthyZones
  rw [List.mem_dedup]
  simp only [List.mem_map, List.mem_filter, Bool.not_eq_true']
  constructor
  · rintro ⟨i, ⟨hi, hh⟩, hz⟩
    exact ⟨i, hi, hh, hz⟩
  · rintro ⟨i, hi, hh, hz⟩
    exact ⟨i, ⟨hi, hh⟩, hz⟩

theorem zoneFailuresAux_mem (healthy : InstanceDesc → Bool) (acc : List String)
    (d : Desc) (z : String) :
    z ∈ zoneFailuresAux healthy acc d
      ↔ z ∈ acc ∨ ∃ i ∈ d.values, healthy i = false ∧ i.zone = z := by
  induction d generalizing acc with
  | nil => simp [zoneFailuresAux, Desc.values]
  | cons p rest ih =>
      unfold zoneFailuresAux
      by_cases hh : healthy p.2 = true
      · rw [if_pos hh, ih]
        simp only [Desc.values, List.map_cons, List.mem_cons]
        constructor
        · rintro (h | ⟨i, hi, hf, hz⟩)
          · exact Or.inl h
          · exact Or.inr ⟨i, Or.inr hi, hf, hz⟩
        · rintro (h | ⟨i, hi | hi, hf, hz⟩)
          · exact Or.inl h
          · rw [hi] at hf
            rw [hh] at hf
            cases hf
          · exact Or.inr ⟨i, hi, hf, hz⟩
      · rw [if_neg hh]
        have hh' : healthy p.2 = false := by
          cases h : healthy p.2
          · rfl
          · exact absurd h hh
        by_cases hz : p.2.zone ∈ acc
        · rw [if_pos hz, ih]
          simp only [Desc.values, List.map_cons, List.mem_cons]
          constructor
          · rintro (h | ⟨i, hi, hf, hzz⟩)
            · exact Or.inl h
            · exact Or.inr ⟨i, Or.inr hi, hf, hzz⟩
          · rintro (h | ⟨i, hi | hi, hf, hzz⟩)
            · exact Or.inl h
            · subst hi
              rw [hzz] at hz
              exact Or.inl hz
            · exact Or.inr ⟨i, hi, hf, hzz⟩
        · rw [if_neg hz, ih]
          simp only [Desc.values, List.map_cons, List.mem_cons, List.mem_append]
          constructor
          · rintro ((h | (h | h)) | ⟨i, hi, hf, hzz⟩)
            · exact Or.inl h
            · exact Or.inr ⟨p.2, Or.inl rfl, hh', h.symm⟩
            · exact absurd h (List.not_mem_nil z)
            · exact Or.inr ⟨i, Or.inr hi, hf, hzz⟩
          · rintro (h | ⟨i, hi | hi, hf, hzz⟩)
            · exact Or.inl (Or.inl h)
            · subst hi
              exact Or.inl (Or.inr (Or.inl hzz.symm))
            · exact Or.inr ⟨i, hi, hf, hzz⟩

theorem zoneFailuresAux_nodup (healthy : InstanceDesc → Bool) (acc : List String)
    (d : Desc) (hacc : acc.Nodup) : (zoneFailuresAux healthy acc d).Nodup := by
  induction d generalizing acc with
  | nil => exact hacc
  | cons p rest ih =>
      unfold zoneFailuresAux
      by_cases hh : healthy p.2 = true
      · rw [if_pos hh]
        exact ih acc hacc
      · rw [if_neg hh]
        by_cases hz : p.2.zone ∈ acc
        · rw [if_pos hz]
          exact ih acc hacc
        · rw [if_neg hz]
          apply ih
          simp [List.nodup_append, hacc, hz]

theorem zoneFailuresOf_nodup (d : Desc) (healthy : InstanceDesc → Bool) :
    (zoneFailuresOf d healthy).Nodup :=
  zoneFailuresAux_nodup healthy [] d List.nodup_nil

theorem unhealthyZones_nodup (d : Desc) (healthy : InstanceDesc → Bool) :
    (unhealthyZones d healthy).Nodup :=
  List.nodup_dedup _

theorem zoneFailuresOf_mem (d : Desc) (healthy : InstanceDesc → Bool) (z : String) :
    z ∈ zoneFailuresOf d healthy ↔ z ∈ unhealthyZones d healthy := by
  rw [zoneFailuresOf, zoneFailuresAux_mem, unhealthyZones_mem]
  simp

theorem zoneFailuresOf_length (d : Desc) (healthy : InstanceDesc → Bool) :
    (zoneFailuresOf d healthy).length = (unhealthyZones d healthy).length := by
  apply List.Perm.length_eq
  rw [List.perm_ext_iff_of_nodup (zoneFailuresOf_nodup d healthy)
    (unhealthyZones_nodup d healthy)]
  intro z
  exact zoneFailuresOf_mem d healthy z

theorem zoneFailuresOf_contains (d : Desc) (healthy : InstanceDesc → Bool)
    (i : InstanceDesc) :
    List.contains (zoneFailuresOf d healthy) i.zone
      = d.values.any fun j => !healthy j && decide (j.zone = i.zone) := by
  rw [Bool.eq_iff_iff]
  constructor
  · intro h
    have hz : i.zone ∈ zoneFailuresOf d healthy := by
      simpa [List.contains, List.elem_iff] using h
    rw [zoneFailuresOf_mem, unhealthyZones_mem] at hz
    obtain ⟨j, hj, hf, hjz⟩ := hz
    simp only [List.any_eq_true, Bool.and_eq_true, Bool.not_eq_true', decide_eq_true_eq]
    exact ⟨j, hj, hf, hjz⟩
  · intro h
    simp only [List.any_eq_true, Bool.and_eq_true, Bool.not_eq_true', decide_eq_true_eq] at h
    obtain ⟨j, hj, hf, hjz⟩ := h
    have hz : i.zone ∈ zoneFailuresOf d healthy := by
      rw [zoneFailuresOf_mem, unhealthyZones_mem]
      exact ⟨j, hj, hf, hjz⟩
    simpa [List.contains, List.elem_iff] using hz

/-- C1: with zone-awareness enabled and a non-empty ring,
`GetReplicationSetForOperation` computes `numReplicatedZones = min(|ringZones|, RF)`,
`minSuccessZones = numReplicatedZones/2 + 1` and
`maxUnavailableZones = minSuccessZones - 1`; it fails with `TooManyUnhealthy`
exactly when the number of zones containing an instance unhealthy for the op
exceeds `maxUnavailableZones`, and otherwise returns every healthy instance
whose zone contains no unhealthy instance, with `max_errors = 0` and
`max_unavailable_zones = maxUnavailableZones - |failedZones|`. -/
theorem getReplicationSetForOperation_zoneAware (d : Desc) (ringTokens : List Nat)
    (ringZones : List String) (cfg : RingConfig) (healthy : InstanceDesc → Bool)
    (hza : cfg.zoneAwarenessEnabled = true) (htok : ringTokens ≠ []) :
    (getReplicationSetForOperation (some d) ringTokens ringZones cfg healthy
        = .error .tooManyUnhealthyInstances
      ↔ (unhealthyZones d healthy).length
          > min ringZones.length cfg.replicationFactor / 2 + 1 - 1)
    ∧ ((unhealthyZones d healthy).length
          ≤ min ringZones.length cfg.replicationFactor / 2 + 1 - 1 →
        getReplicationSetForOperation (some d) ringTokens ringZones cfg healthy
          = .ok { instances := d.values.filter fun i =>
                    healthy i && !(d.values.any fun j => !healthy j && decide (j.zone = i.zone)),
                  maxErrors := 0,
                  maxUnavailableZones :=
                    min ringZones.length cfg.replicationFactor / 2 + 1 - 1
                      - (unhealthyZones d healthy).length }) := by
  have hlen : ¬(ringTokens.length = 0) := by
    simpa [List.length_eq_zero] using htok
  have hfail := zoneFailuresOf_length d healthy
  constructor
  · simp only [getReplicationSetForOperation, hlen, if_false, hza, if_true, hfail]
    by_cases h : (unhealthyZones d healthy).length
        > min ringZones.length cfg.replicationFactor / 2 + 1 - 1
    · simp [h]
    · simp [h]
  · intro h
    have hnot : ¬((zoneFailuresOf d healthy).length
        > min ringZones.length cfg.replicationFactor / 2 + 1 - 1) := by
      rw [hfail]
      omega
    simp only [getReplicationSetForOperation, hlen, if_false, hza, if_true]
    have hfilter :
        (if (zoneFailuresOf d healthy).length > 0 then
            List.filter (fun i => !List.contains (zoneFailuresOf d healthy) i.zone)
              (List.filter healthy d.values)
          else List.filter healthy d.values)
          = d.values.filter fun i =>
              healthy i && !(d.values.any fun j => !healthy j && decide (j.zone = i.zone)) := by
      by_cases hpos : (zoneFailuresOf d healthy).length > 0
      · rw [if_pos hpos, List.filter_filter]
        apply List.filter_congr
        intro i _
        rw [zoneFailuresOf_contains, Bool.and_comm]
      · rw [if_neg hpos]
        have hempty : zoneFailuresOf d healthy = [] := by
          cases hcase : zoneFailuresOf d healthy with
          | nil => rfl
          | cons a t => rw [hcase] at hpos; simp at hpos
        have hall : ∀ j ∈ d.values, healthy j = true := by
          intro j hj
          by_contra hcon
          have hjf : healthy j = false := by
            cases hcase : healthy j
            · rfl
            · exact absurd hcase hcon
          have : j.zone ∈ zoneFailuresOf d healthy := by
            rw [zoneFailuresOf_mem, unhealthyZones_mem]
            exact ⟨j, hj, hjf, rfl⟩
          rw [hempty] at this
          exact absurd this (List.not_mem_nil _)
        apply List.filter_congr
        intro i hi
        have hany : (d.values.any fun j => !healthy j && decide (j.zone = i.zone)) = false := by
          rw [Bool.eq_false_iff]
          intro hcon
          simp only [List.any_eq_true, Bool.and_eq_true, Bool.not_eq_true'] at hcon
          obtain ⟨j, hj, hjf, _⟩ := hcon
          rw [hall j hj] at hjf
          cases hjf
        rw [hany]
        simp
    rw [if_neg hnot, hfilter, hfail]

/-- Closed-form check of `getReplicationSetForOperation_zoneAware`: three
zones with one instance each, the `z3` instance unhealthy; the failing zone
is dropped and `max_unavailable_zones` becomes `1 - 1 = 0`. -/
theorem getReplicationSetForOperation_zoneAware_witness :
    getReplicationSetForOperation
        (some [("ing-1", { id := "ing-1", addr := "1.1.1.1", state := .ACTIVE, zone := "z1",
                           registeredTimestamp := 0, timestamp := 10, tokens := [5] }),
               ("ing-2", { id := "ing-2", addr := "1.1.1.2", state := .ACTIVE, zone := "z2",
                           registeredTimestamp := 0, timestamp := 11, tokens := [9] }),
               ("ing-3", { id := "ing-3", addr := "1.1.1.3", state := .LEFT, zone := "z3",
                           registeredTimestamp := 0, timestamp := 12, tokens := [13] })])
        [5, 9, 13] ["z1", "z2", "z3"] { replicationFactor := 3, zoneAwarenessEnabled := true }
        (fun i => decide (i.state = .ACTIVE))
      = .ok { instances :=
                [{ id := "ing-1", addr := "1.1.1.1", state := .ACTIVE, zone := "z1",
                   registeredTimestamp := 0, timestamp := 10, tokens := [5] },
                 { id := "ing-2", addr := "1.1.1.2", state := .ACTIVE, zone := "z2",
                   registeredTimestamp := 0, timestamp := 11, tokens := [9] }],
              maxErrors := 0, maxUnavailableZones := 0 } := by
  have h := (getReplicationSetForOperation_zoneAware
    [("ing-1", { id := "ing-1", addr := "1.1.1.1", state := .ACTIVE, zone := "z1",
                 registeredTimestamp := 0, timestamp := 10, tokens := [5] }),
     ("ing-2", { id := "ing-2", addr := "1.1.1.2", state := .ACTIVE, zone := "z2",
                 registeredTimestamp := 0, timestamp := 11, tokens := [9] }),
     ("ing-3", { id := "ing-3", addr := "1.1.1.3", state := .LEFT, zone := "z3",
                 registeredTimestamp := 0, timestamp := 12, tokens := [13] })]
    [5, 9, 13] ["z1", "z2", "z3"] { replicationFactor := 3, zoneAwarenessEnabled := true }
    (fun i => decide (i.state = .ACTIVE)) rfl (by decide)).2 (by decide)
  rw [h]
  rfl

/-- C5: with zone-awareness disabled and a non-empty ring,
`GetReplicationSetForOperation` computes
`required = max(|ingesters|, RF) - RF/2`, fails with `TooManyUnhealthy`
exactly when fewer than `required` instances are healthy for the op, and
otherwise returns the healthy instances with
`max_errors = |healthy| - required` and `max_unavailable_zones = 0`. -/
theorem getReplicationSetForOperation_noZoneAware (d : Desc) (ringTokens : List Nat)
    (ringZones : List String) (cfg : RingConfig) (healthy : InstanceDesc → Bool)
    (hza : cfg.zoneAwarenessEnabled = false) (htok : ringTokens ≠ []) :
    (getReplicationSetForOperation (some d) ringTokens ringZones cfg healthy
        = .error .tooManyUnhealthyInstances
      ↔ (d.values.filter healthy).length
          < max d.values.length cfg.replicationFactor - cfg.replicationFactor / 2)
    ∧ ((d.values.filter healthy).length
          ≥ max d.values.length cfg.replicationFactor - cfg.replicationFactor / 2 →
        getReplicationSetForOperation (some d) ringTokens ringZones cfg healthy
          = .ok { instances := d.values.filter healthy,
                  maxErrors := (d.values.filter healthy).length
                    - (max d.values.length cfg.replicationFactor - cfg.replicationFactor / 2),
                  maxUnavailableZones := 0 }) := by
  have hlen : ¬(ringTokens.length = 0) := by
    simpa [List.length_eq_zero] using htok
  constructor
  · simp only [getReplicationSetForOperation, hlen, if_false, hza, Bool.false_eq_true]
    by_cases h : (d.values.filter healthy).length
        < max d.values.length cfg.replicationFactor - cfg.replicationFactor / 2
    · simp [h]
    · simp [h]
  · intro h
    have hnot : ¬((List.filter healthy d.values).length
        < max d.values.length cfg.replicationFactor - cfg.replicationFactor / 2) := by
      omega
    simp only [getReplicationSetForOperation, hlen, if_false, hza, Bool.false_eq_true,
      hnot]

/-- Closed-form check of `getReplicationSetForOperation_noZoneAware`: the
spec's concrete scenario RF=3, zone-awareness off, 4 instances, 1 unhealthy:
`required = 4 - 1 = 3`, 3 healthy instances returned with `max_errors = 0`. -/
theorem getReplicationSetForOperation_noZoneAware_witness :
    getReplicationSetForOperation
        (some [("ing-1", { id := "ing-1", addr := "1.1.1.1", state := .ACTIVE, zone := "",
                           registeredTimestamp := 0, timestamp := 10, tokens := [5] }),
               ("ing-2", { id := "ing-2", addr := "1.1.1.2", state := .ACTIVE, zone := "",
                           registeredTimestamp := 0, timestamp := 11, tokens := [9] }),
               ("ing-3", { id := "ing-3", addr := "1.1.1.3", state := .ACTIVE, zone := "",
                           registeredTimestamp := 0, timestamp := 12, tokens := [13] }),
               ("ing-4", { id := "ing-4", addr := "1.1.1.4", state := .LEFT, zone := "",
                           registeredTimestamp := 0, timestamp := 13, tokens := [17] })])
        [5, 9, 13, 17] [] { replicationFactor := 3, zoneAwarenessEnabled := false }
        (fun i => decide (i.state = .ACTIVE))
      = .ok { instances :=
                [{ id := "ing-1", addr := "1.1.1.1", state := .ACTIVE, zone := "",
                   registeredTimestamp := 0, timestamp := 10, tokens := [5] },
                 { id := "ing-2", addr := "1.1.1.2", state := .ACTIVE, zone := "",
                   registeredTimestamp := 0, timestamp := 11, tokens := [9] },
                 { id := "ing-3", addr := "1.1.1.3", state := .ACTIVE, zone := "",
                   registeredTimestamp := 0, timestamp := 12, tokens := [13] }],
              maxErrors := 0, maxUnavailableZones := 0 } := by
  have h := (getReplicationSetForOperation_noZoneAware
    [("ing-1", { id := "ing-1", addr := "1.1.1.1", state := .ACTIVE, zone := "",
                 registeredTimestamp := 0, timestamp := 10, tokens := [5] }),
     ("ing-2", { id := "ing-2", addr := "1.1.1.2", state := .ACTIVE, zone := "",
                 registeredTimestamp := 0, timestamp := 11, tokens := [9] }),
     ("ing-3", { id := "ing-3", addr := "1.1.1.3", state := .ACTIVE, zone := "",
                 registeredTimestamp := 0, timestamp := 12, tokens := [13] }),
     ("ing-4", { id := "ing-4", addr := "1.1.1.4", state := .LEFT, zone := "",
                 registeredTimestamp := 0, timestamp := 13, tokens := [17] })]
    [5, 9, 13, 17] [] { replicationFactor := 3, zoneAwarenessEnabled := false }
    (fun i => decide (i.state = .ACTIVE)) rfl (by decide)).2 (by decide)
  rw [h]
  rfl

/-! ### `GetAllHealthy` theorems -/

/-- C10: `GetAllHealthy` never reports `TooManyUnhealthy`; it fails with
`EmptyRing` exactly on a nil or empty descriptor, and otherwise returns
exactly the instances passing the per-instance health check, with
`MaxErrors = 0`, even when none pass. -/
theorem getAllHealthy_spec (ringDesc : Option Desc) (healthy : InstanceDesc → Bool) :
    getAllHealthy ringDesc healthy ≠ .error .tooManyUnhealthyInstances
      ∧ (getAllHealthy ringDesc healthy = .error .emptyRing
          ↔ ringDesc = none ∨ ringDesc = some [])
      ∧ ∀ d : Desc, ringDesc = some d → d ≠ [] →
          getAllHealthy ringDesc healthy
            = .ok { instances := List.filter healthy d.values, maxErrors := 0,
                    maxUnavailableZones := 0 } := by
  refine ⟨?_, ?_, ?_⟩
  · cases ringDesc with
    | none => simp [getAllHealthy]
    | some d =>
        by_cases h : d.values.length = 0 <;> simp [getAllHealthy, h]
  · cases ringDesc with
    | none => simp [getAllHealthy]
    | some d =>
        by_cases h : d.values.length = 0
        · have hd : d = [] := by
            cases d with
            | nil => rfl
            | cons a t => simp [Desc.values] at h
          simp [getAllHealthy, hd, Desc.values]
        · have hd : ¬(d = []) := by
            rintro rfl; simp [Desc.values] at h
          simp [getAllHealthy, h, hd]
  · rintro d rfl hd
    have h : ¬(d.values.length = 0) := by
      rintro h
      apply hd
      cases d with
      | nil => rfl
      | cons a t => simp [Desc.values] at h
    simp [getAllHealthy, h]

/-- Closed-form check of `getAllHealthy_spec` on a two-instance descriptor
with one healthy instance. -/
theorem getAllHealthy_spec_witness :
    getAllHealthy
        (some [("a", { id := "a", addr := "1.1.1.1", state := .ACTIVE, zone := "z1",
                       registeredTimestamp := 0, timestamp := 10, tokens := [5] }),
               ("b", { id := "b", addr := "1.1.1.2", state := .LEFT, zone := "z2",
                       registeredTimestamp := 0, timestamp := 11, tokens := [9] })])
        (fun i => decide (i.state = .ACTIVE))
      = .ok { instances := [{ id := "a", addr := "1.1.1.1", state := .ACTIVE, zone := "z1",
                              registeredTimestamp := 0, timestamp := 10, tokens := [5] }],
              maxErrors := 0, maxUnavailableZones := 0 } := by
  have h := (getAllHealthy_spec
    (some [("a", { id := "a", addr := "1.1.1.1", state := .ACTIVE, zone := "z1",
                   registeredTimestamp := 0, timestamp := 10, tokens := [5] }),
           ("b", { id := "b", addr := "1.1.1.2", state := .LEFT, zone := "z2",
                   registeredTimestamp := 0, timestamp := 11, tokens := [9] })])
    (fun i => decide (i.state = .ACTIVE))).2.2 _ rfl (by decide)
  rw [h]
  rfl

end Cortex.Ring
